import Mathlib

/-! Jupiter Brain backend, the log-writer step and the log writer of the CI worker.

A shallow embedding of `backend/jupiterbrain.go` and `step_open_log_writer.go`.

* Go strings are Lean `String`s; a Go `map[string]string` is an association
  list read with `List.lookup`, where an assignment `m[k] = v` puts the pair in
  front, so that the latest assignment is the one a read finds.
* Calls into libraries (URL parsing, JSON decoding, the HTTP client, SSH) are
  not part of the program: their results are taken as inputs.
* `fmt.Errorf` values are kept as the format string of the source together
  with its arguments.
* The AMQP log writer has no source file here; it is modelled from section 4.3
  of the specification.
-/

namespace Worker

/-! ## Data model -/

/-- The selector for a VM image (`backend.StartAttributes`): the five fields
the provider reads. -/
structure StartAttributes where
  Language : String
  OsxImage : String
  Dist : String
  Group : String
  OS : String
deriving DecidableEq, Repr

/-- A Go `map[string]string`. -/
abbrev StrMap := List (String × String)

/-- The read `v, ok := m[k]`. -/
def StrMap.get? (m : StrMap) (k : String) : Option String := List.lookup k m

/-- The assignment `m[k] = v`. -/
def StrMap.set (m : StrMap) (k v : String) : StrMap := (k, v) :: m

/-- An argument of a `fmt.Errorf` call. -/
inductive FmtArg where
  | int (i : Int)
  | str (s : String)
  | attrs (a : StartAttributes)
deriving DecidableEq, Repr

/-- The error values the backend returns. -/
inductive Err where
  /-- `ErrMissingEndpointConfig` -/
  | missingEndpointConfig
  /-- `ErrStaleVM` -/
  | staleVM
  /-- `fmt.Errorf(format, args...)` -/
  | errorf (format : String) (args : List FmtArg)
  /-- an error value handed back by a library call, with its message -/
  | external (msg : String)
  /-- an `*ssh.ExitError` with its `ExitStatus()` -/
  | exitError (status : Int)
  /-- `context.Canceled` -/
  | canceled
  /-- `context.DeadlineExceeded` -/
  | deadlineExceeded
deriving DecidableEq, Repr

/-- The lookup keys `getImageName` builds from the attributes, in the order of
the slice literal of the source. -/
def imageNameKeys (startAttributes : StartAttributes) : List String :=
  [ startAttributes.OsxImage,
    "osx_image_" ++ startAttributes.OsxImage,
    "osx_image_" ++ startAttributes.OsxImage ++ "_" ++ startAttributes.Language,
    "dist_" ++ startAttributes.Dist ++ "_" ++ startAttributes.Language,
    "dist_" ++ startAttributes.Dist,
    "group_" ++ startAttributes.Group ++ "_" ++ startAttributes.Language,
    "group_" ++ startAttributes.Group,
    "language_" ++ startAttributes.Language,
    "default_" ++ startAttributes.OS ]

/-- The loop of `getImageName`: the value of the first key found in the map,
the empty string when the keys run out. -/
def lookupFirst (imageAliases : StrMap) : List String → String
  | [] => ""
  | key :: rest =>
    match imageAliases.get? key with
    | some imageName => imageName
    | none => lookupFirst imageAliases rest

/-- `jupiterBrainProvider.getImageName`, on the provider's alias table. -/
def getImageName (imageAliases : StrMap) (startAttributes : StartAttributes) : String :=
  lookupFirst imageAliases (imageNameKeys startAttributes)

/-! ## Provider configuration and construction -/

/-- Modelled from the spec: the `config.ProviderConfig` type is not among the
sources; the spec describes it as a string-to-string mapping with `IsSet(key)`
and `Get(key)` (the tests build one from a Go map with
`ProviderConfigFromMap`). -/
structure ProviderConfig where
  cfgMap : StrMap
deriving DecidableEq, Repr

/-- Modelled from the spec: `IsSet(key)` tells whether the mapping has the key. -/
def ProviderConfig.IsSet (cfg : ProviderConfig) (key : String) : Bool :=
  (cfg.cfgMap.get? key).isSome

/-- Modelled from the spec: `Get(key)` is the value of the key, the empty
string (the zero value of a Go map read) when the key is absent. -/
def ProviderConfig.Get (cfg : ProviderConfig) (key : String) : String :=
  (cfg.cfgMap.get? key).getD ""

/-- The userinfo part of a URL (`url.Userinfo`). -/
structure Userinfo where
  username : String
  password : Option String
deriving DecidableEq, Repr

/-- A parsed URL (`url.URL`); `User` is the pointer field `URL.User`, `none`
for `nil`. -/
structure URL where
  Scheme : String
  User : Option Userinfo
  Host : String
  Path : String
deriving DecidableEq, Repr

/-- One element of the `data` list of a Jupiter Brain response
(`jupiterBrainInstancePayload`). -/
structure jupiterBrainInstancePayload where
  ID : String
  IPAddresses : List String
  State : String
  BaseImage : String
  /-- the field `Type` of the source (a reserved word here) -/
  Type_ : String
deriving DecidableEq, Repr

/-- The decoded response (`jupiterBrainDataResponse`): a slice of pointers,
`none` for a `nil` pointer (a JSON `null` entry). -/
structure jupiterBrainDataResponse where
  Data : List (Option jupiterBrainInstancePayload)
deriving DecidableEq, Repr

/-- The library functions the backend calls, taken as parameters: their code
is not part of the program. An error is given by its message. -/
structure Library where
  /-- `url.Parse` -/
  urlParse : String → Except String URL
  /-- `(*url.URL).Parse`: a reference resolved against a base URL -/
  urlParseRef : URL → String → Except String URL
  /-- `(*url.URL).String` -/
  urlString : URL → String
  /-- `url.QueryEscape` -/
  queryEscape : String → String
  /-- `time.ParseDuration`, in nanoseconds -/
  parseDuration : String → Except String Int
  /-- `json.NewDecoder(body).Decode(&jupiterBrainDataResponse{})` -/
  jsonDecode : String → Except String jupiterBrainDataResponse
  /-- `net.ParseIP(s)` when its `To4()` is not nil, as `String()` renders it -/
  parseIPv4 : String → Option String

/-- Membership in the character class `a-zA-Z0-9_` that
`nonAlphaNumRegexp` negates. -/
def isAlphaNumUnderscore (c : Char) : Bool :=
  ('a' ≤ c && c ≤ 'z') || ('A' ≤ c && c ≤ 'Z') || ('0' ≤ c && c ≤ '9') || c == '_'

/-- `ReplaceAll` for a pattern of the form `[^class]+`: every maximal run of
characters outside the class becomes one copy of `repl`. The flag tells
whether the previous character was already part of a run. -/
def replaceRunsAux (cls : Char → Bool) (repl : List Char) : Bool → List Char → List Char
  | _, [] => []
  | inRun, c :: cs =>
    if cls c then c :: replaceRunsAux cls repl false cs
    else if inRun then replaceRunsAux cls repl true cs
    else repl ++ replaceRunsAux cls repl true cs

/-- `re.ReplaceAll([]byte(s), []byte(repl))` for `re = [^class]+`. -/
def replaceRuns (cls : Char → Bool) (repl : String) (s : String) : String :=
  String.mk (replaceRunsAux cls repl.data false s.data)

/-- `strings.ToUpper` on a string of ASCII characters, which is what the
replacement by `nonAlphaNumRegexp` leaves. -/
def toUpper (s : String) : String := String.mk (s.data.map Char.toUpper)

/-- `strings.Split(s, sep)` for a one-character separator, on characters. -/
def splitChars (sep : Char) : List Char → List (List Char)
  | [] => [[]]
  | c :: cs =>
    match splitChars sep cs with
    | [] => [[]]
    | w :: ws => if c = sep then [] :: w :: ws else (c :: w) :: ws

/-- `strings.Split(s, ",")`. -/
def splitComma (s : String) : List String :=
  (splitChars ',' s.data).map String.mk

/-- The `normalizedAliasName` of the construction loop. -/
def normalizedAliasName (aliasName : String) : String :=
  toUpper (replaceRuns isAlphaNumUnderscore "_" aliasName)

/-- The config key the construction loop consults for an alias:
`fmt.Sprintf("IMAGE_ALIAS_%s", normalizedAliasName)`. -/
def imageAliasKey (aliasName : String) : String :=
  "IMAGE_ALIAS_" ++ normalizedAliasName aliasName

/-- The provider (`jupiterBrainProvider`), without its HTTP client. -/
structure jupiterBrainProvider where
  baseURL : URL
  imageAliases : StrMap
  sshKeyPath : String
  sshKeyPassphrase : String
  keychainPassword : String
  bootPollSleep : Int
deriving DecidableEq, Repr

/-- The loop over `aliasNamesSlice` in `newJupiterBrainProvider`: the alias
table built so far is the second argument. -/
def buildImageAliases (cfg : ProviderConfig) : List String → StrMap → Except Err StrMap
  | [], imageAliases => .ok imageAliases
  | aliasName :: rest, imageAliases =>
    if !cfg.IsSet (imageAliasKey aliasName) then
      .error (.errorf "expected image alias %q" [.str aliasName])
    else
      buildImageAliases cfg rest (imageAliases.set aliasName (cfg.Get (imageAliasKey aliasName)))

/-- The optional `BOOT_POLL_SLEEP` setting: three seconds unless set. -/
def bootPollSleepOf (L : Library) (cfg : ProviderConfig) : Except Err Int :=
  if cfg.IsSet "BOOT_POLL_SLEEP" then
    match L.parseDuration (cfg.Get "BOOT_POLL_SLEEP") with
    | .error e => .error (.external e)
    | .ok si => .ok si
  else .ok (3 * 1000000000)

/-- `newJupiterBrainProvider`. -/
def newJupiterBrainProvider (L : Library) (cfg : ProviderConfig) :
    Except Err jupiterBrainProvider :=
  if !cfg.IsSet "ENDPOINT" then .error .missingEndpointConfig
  else if !cfg.IsSet "IMAGE_ALIASES" then
    .error (.errorf "expected IMAGE_ALIASES config key" [])
  else
    let aliasNames := cfg.Get "IMAGE_ALIASES"
    match L.urlParse (cfg.Get "ENDPOINT") with
    | .error e => .error (.external e)
    | .ok baseURL =>
      match buildImageAliases cfg (splitComma aliasNames) [] with
      | .error e => .error e
      | .ok imageAliases =>
        if !cfg.IsSet "SSH_KEY_PATH" then
          .error (.errorf "expected SSH_KEY_PATH config key" [])
        else if !cfg.IsSet "SSH_KEY_PASSPHRASE" then
          .error (.errorf "expected SSH_KEY_PASSPHRASE config key" [])
        else if !cfg.IsSet "KEYCHAIN_PASSWORD" then
          .error (.errorf "expected KEYCHAIN_PASSWORD config key" [])
        else
          match bootPollSleepOf L cfg with
          | .error e => .error e
          | .ok bootPollSleep =>
            .ok { baseURL := baseURL
                  imageAliases := imageAliases
                  sshKeyPath := cfg.Get "SSH_KEY_PATH"
                  sshKeyPassphrase := cfg.Get "SSH_KEY_PASSPHRASE"
                  keychainPassword := cfg.Get "KEYCHAIN_PASSWORD"
                  bootPollSleep := bootPollSleep }

/-- The payload of the sample response body. -/
def samplePayload : jupiterBrainInstancePayload where
  ID := "vm-1"
  IPAddresses := ["192.0.2.1"]
  State := "running"
  BaseImage := ""
  Type_ := ""

/-- A response body the sample library decodes. -/
def sampleBody : String :=
  "\x7b\"data\":[\x7b\"id\":\"vm-1\",\"ip-addresses\":[\"192.0.2.1\"],\"state\":\"running\"\x7d]\x7d"

/-- A sample library for evaluating the definitions on concrete inputs: it
parses the URLs of one endpoint, `http://token@jb.example.com/`, decodes one
response body and knows one IPv4 address; it refuses every other input of the
fallible functions. -/
def sampleLibrary : Library where
  urlParse := fun s =>
    if "http://token@jb.example.com/".data.isPrefixOf s.data then
      .ok { Scheme := "http", User := some ⟨"token", none⟩, Host := "jb.example.com",
            Path := String.mk (s.data.drop 27) }
    else .error "parse: input outside the sample library"
  urlParseRef := fun base ref => .ok { base with Path := "/" ++ ref }
  urlString := fun u =>
    match u.User with
    | some ui => u.Scheme ++ "://" ++ ui.username ++ "@" ++ u.Host ++ u.Path
    | none => u.Scheme ++ "://" ++ u.Host ++ u.Path
  queryEscape := fun s => s
  parseDuration := fun _ => .error "time: input outside the sample library"
  jsonDecode := fun s =>
    if s = sampleBody then .ok { Data := [some samplePayload] }
    else .error "json: input outside the sample library"
  parseIPv4 := fun s => if s = "192.0.2.1" then some s else none

/-- A provider for the sample endpoint with one image alias. -/
def sampleProvider : jupiterBrainProvider where
  baseURL := { Scheme := "http", User := some ⟨"token", none⟩, Host := "jb.example.com", Path := "/" }
  imageAliases := [("default_linux", "travis-linux")]
  sshKeyPath := "/keys/id_rsa"
  sshKeyPassphrase := "secret"
  keychainPassword := "hunter2"
  bootPollSleep := 3 * 1000000000

/-- Attributes that select the alias of the sample provider. -/
def sampleAttributes : StartAttributes := ⟨"ruby", "", "", "", "linux"⟩

/-- A complete sample configuration with one alias. -/
def sampleConfig (aliasNames aliasKey aliasValue : String) : ProviderConfig where
  cfgMap :=
    [ ("ENDPOINT", "http://token@jb.example.com/"),
      ("IMAGE_ALIASES", aliasNames),
      (aliasKey, aliasValue),
      ("SSH_KEY_PATH", "/keys/id_rsa"),
      ("SSH_KEY_PASSPHRASE", "secret"),
      ("KEYCHAIN_PASSWORD", "hunter2") ]

/-! ## HTTP transport -/

/-- An `http.Header`: canonical key to list of values. -/
abbrev Header := List (String × List String)

/-- `Header.Set(key, value)` for a key already in canonical form, as the two
keys of the source (`Content-Type`, `Authorization`) are. -/
def Header.Set (h : Header) (key value : String) : Header := (key, [value]) :: h

/-- `Header.Get(key)`: the first value of the key, the empty string without one. -/
def Header.Get (h : Header) (key : String) : String :=
  match List.lookup key h with
  | some (v :: _) => v
  | _ => ""

/-- An `http.Request` as the backend builds it. `Body` is the value that was
marshalled to JSON for it (a map of maps of strings), `none` for a `nil` body. -/
structure Request where
  Method : String
  URL : URL
  Header : Header
  Body : Option (List (String × StrMap))
deriving DecidableEq, Repr

/-- An `http.Response`: status code and the bytes read from its body. -/
structure Response where
  StatusCode : Int
  Body : String
deriving DecidableEq, Repr

/-- What one `p.client.Do(req)` gives: a transport error (and a nil
response) or a response. -/
inductive RoundTrip where
  | failed (msg : String)
  | response (resp : Response)
deriving DecidableEq, Repr

/-- The outcomes of the successive `client.Do` calls of one `httpDo`: the
first call and the calls the backoff still allows after it. -/
structure Attempts where
  first : RoundTrip
  more : List RoundTrip
deriving DecidableEq, Repr

/-- What the program does to the outside, in order. -/
inductive Effect where
  /-- one `client.Do(req)` -/
  | send (req : Request)
  /-- `net.Dial("tcp", addr)` -/
  | dial (addr : String)
  /-- `time.Sleep(d)` -/
  | sleep (d : Int)
  /-- `metrics.TimeSince(name, _)` -/
  | timeSince (name : String)
  /-- `metrics.Mark(name)` -/
  | mark (name : String)
deriving DecidableEq, Repr

/-- How a call ends: it returns, it panics (nil dereference, index out of
range, failed type assertion), or it waits for ever. -/
inductive Outcome (α : Type) where
  | returned (a : α)
  | panicked
  | blocked
deriving DecidableEq, Repr

/-- `http.NewRequest(method, urlStr, body)`: the URL is parsed, the header is
empty. -/
def newRequest (L : Library) (method urlStr : String) (body : Option (List (String × StrMap))) :
    Except String Request :=
  match L.urlParse urlStr with
  | .error e => .error e
  | .ok u => .ok { Method := method, URL := u, Header := [], Body := body }

/-- `backoff.Retry` around `resp, err = p.client.Do(req)`: calls are made
until one succeeds or the backoff gives up; the values of the last call are
the result. -/
def retry (req : Request) : RoundTrip → List RoundTrip → (Option Response × Option Err) × List Effect
  | .response resp, _ => ((some resp, none), [.send req])
  | .failed msg, [] => ((none, some (.external msg)), [.send req])
  | .failed _, next :: rest =>
    let r := retry req next rest
    (r.1, .send req :: r.2)

/-- The result of `httpDo`: the request as the call left it (the caller holds
a pointer to it), the response, the error, and the calls made. -/
structure HttpResult where
  req : Request
  resp : Option Response
  err : Option Err
  effects : List Effect
deriving DecidableEq, Repr

/-- The first statement of `httpDo`: userinfo in the URL becomes a token
header. -/
def injectToken (req : Request) : Request :=
  match req.URL.User with
  | some user =>
    { req with
      URL := { req.URL with User := none }
      Header := req.Header.Set "Authorization" ("token " ++ user.username) }
  | none => req

/-- `jupiterBrainProvider.httpDo`. -/
def httpDo (req : Request) (attempts : Attempts) : HttpResult :=
  let req := injectToken req
  let r := retry req attempts.first attempts.more
  { req := req, resp := r.1.1, err := r.1.2, effects := r.2 }

/-! ## Instances -/

/-- The instance handle (`jupiterBrainInstance`); `payload` is a pointer. -/
structure jupiterBrainInstance where
  payload : Option jupiterBrainInstancePayload
  provider : jupiterBrainProvider
deriving DecidableEq, Repr

/-- `jupiterBrainInstance.ID`. -/
def jupiterBrainInstance.ID (i : jupiterBrainInstance) : String :=
  match i.payload with
  | none => "\x7bunidentified\x7d"
  | some payload => payload.ID ++ ":" ++ payload.BaseImage

/-- `jupiterBrainInstance.Stop`: the DELETE request. The context argument is
not used by the source. -/
def Stop (L : Library) (i : jupiterBrainInstance) (attempts : Attempts) :
    Outcome (Option Err) × List Effect :=
  match i.payload with
  | none => (.panicked, [])
  | some payload =>
    match L.urlParseRef i.provider.baseURL ("instances/" ++ L.queryEscape payload.ID) with
    | .error e => (.returned (some (.external e)), [])
    | .ok u =>
      match newRequest L "DELETE" (L.urlString u) none with
      | .error e => (.returned (some (.external e)), [])
      | .ok req =>
        let r := httpDo req attempts
        match r.resp with
        | none => (.panicked, r.effects)
        | some _ => (.returned r.err, r.effects)

/-! ## Start -/

/-- Membership in the character class `A-Za-z0-9.:-_` that
`metricNameCleanRegexp` negates: inside the brackets `:-_` is the range from
`:` to `_`. -/
def isMetricNameChar (c : Char) : Bool :=
  ('A' ≤ c && c ≤ 'Z') || ('a' ≤ c && c ≤ 'z') || ('0' ≤ c && c ≤ '9') || c == '.' ||
    (':' ≤ c && c ≤ '_')

/-- The `normalizedImageName` of `Start`. -/
def normalizedImageName (imageName : String) : String :=
  replaceRuns isMetricNameChar "-" imageName

/-- One turn of the poller's loop as the outside determines it: the outcomes
of the GET and whether the dial to port 22, if it comes to it, succeeds. -/
structure PollRound where
  get : Attempts
  dialOK : Bool
deriving DecidableEq, Repr

/-- What the poller goroutine has come to: a payload sent on `instanceReady`,
an error sent on `errChan`, a panic, or still looping. -/
inductive PollerResult where
  | ready (payload : jupiterBrainInstancePayload)
  | failed (err : Err)
  | panicked
  | running
deriving DecidableEq, Repr

/-- The loop over `payload.IPAddresses`: the first address that is IPv4. -/
def firstIPv4 (L : Library) : List String → Option String
  | [] => none
  | ipString :: rest =>
    match L.parseIPv4 ipString with
    | some ip => some ip
    | none => firstIPv4 L rest

/-- The `for` loop of the poller goroutine, one list element a turn. -/
def pollLoop (L : Library) (p : jupiterBrainProvider) (req : Request) :
    List PollRound → PollerResult × List Effect
  | [] => (.running, [])
  | round :: rest =>
    let r := httpDo req round.get
    match r.err with
    | some err => (.failed err, r.effects)
    | none =>
      match r.resp with
      | none => (.panicked, r.effects)
      | some resp =>
        if resp.StatusCode ≠ 200 then
          (.failed (.errorf "unknown status code: %d, expected 200 (body: %q)"
            [.int resp.StatusCode, .str resp.Body]), r.effects)
        else
          match L.jsonDecode resp.Body with
          | .error e => (.failed (.errorf "couldn't decode refresh payload: %s" [.str e]), r.effects)
          | .ok dataPayload =>
            match dataPayload.Data with
            | [] => (.panicked, r.effects)
            | none :: _ => (.panicked, r.effects)
            | some payload :: _ =>
              match firstIPv4 L payload.IPAddresses with
              | none =>
                let next := pollLoop L p r.req rest
                (next.1, r.effects ++ .sleep p.bootPollSleep :: next.2)
              | some ip =>
                if round.dialOK then
                  (.ready payload, r.effects ++ [.dial (ip ++ ":22")])
                else
                  let next := pollLoop L p r.req rest
                  (next.1, r.effects ++ .dial (ip ++ ":22") :: .sleep p.bootPollSleep :: next.2)

/-- The poller goroutine of `Start`, started with the id of the created
instance. -/
def poller (L : Library) (p : jupiterBrainProvider) (id : String) (rounds : List PollRound) :
    PollerResult × List Effect :=
  match L.urlParseRef p.baseURL ("instances/" ++ L.queryEscape id) with
  | .error e => (.failed (.external e), [])
  | .ok u =>
    match newRequest L "GET" (L.urlString u) none with
    | .error e => (.failed (.external e), [])
    | .ok req => pollLoop L p req rounds

/-- The error of a context that is done (`ctx.Err()`). -/
inductive CtxErr where
  | canceled
  | deadlineExceeded
deriving DecidableEq, Repr

/-- The error value of `ctx.Err()`. -/
def CtxErr.toErr : CtxErr → Err
  | .canceled => .canceled
  | .deadlineExceeded => .deadlineExceeded

/-- The case the `select` of `Start` takes: a receive from the poller's
channels, or `ctx.Done()`. -/
inductive SelectCase where
  | poller
  | ctxDone (cause : CtxErr)
deriving DecidableEq, Repr

/-- The outside of one `Start` call: the outcomes of the create request, the
turns the poller takes before the `select` fires, the case the `select`
takes, and the outcomes of the DELETE request of `Stop`. -/
structure StartEnv where
  create : Attempts
  polls : List PollRound
  select : SelectCase
  stop : Attempts
deriving DecidableEq, Repr

/-- The result type of `Start`: the instance and the error, one of them nil. -/
abbrev StartResult := Outcome (Option jupiterBrainInstance × Option Err) × List Effect

/-- The two branches of `Start` that give up: stop the created instance, then
return the error. -/
def stopAndReturn (L : Library) (p : jupiterBrainProvider)
    (payload : jupiterBrainInstancePayload) (env : StartEnv) (before : List Effect) (err : Err) :
    StartResult :=
  let s := Stop L { payload := some payload, provider := p } env.stop
  match s.1 with
  | .returned _ => (.returned (none, some err), before ++ s.2)
  | .panicked => (.panicked, before ++ s.2)
  | .blocked => (.blocked, before ++ s.2)

/-- The part of `Start` after the created payload has been read: the poller
goroutine and the `select`. -/
def awaitBoot (L : Library) (p : jupiterBrainProvider) (env : StartEnv) (imageName : String)
    (payload : jupiterBrainInstancePayload) : StartResult :=
  let polled := poller L p payload.ID env.polls
  match env.select, polled.1 with
  | _, .panicked => (.panicked, polled.2)
  | .poller, .ready ready =>
    (.returned (some { payload := some ready, provider := p }, none),
      polled.2 ++
        [ .timeSince "worker.vm.provider.jupiterbrain.boot",
          .timeSince ("worker.vm.provider.jupiterbrain.boot.image." ++ normalizedImageName imageName) ])
  | .poller, .failed err => stopAndReturn L p payload env polled.2 err
  | .poller, .running => (.blocked, polled.2)
  | .ctxDone .deadlineExceeded, _ =>
    stopAndReturn L p payload env
      (polled.2 ++ [.mark "worker.vm.provider.jupiterbrain.boot.timeout"]) .deadlineExceeded
  | .ctxDone .canceled, _ => stopAndReturn L p payload env polled.2 .canceled

/-- The create request of `Start` as it is handed to `httpDo`: the request
`http.NewRequest` built, with its content type set. -/
def createRequest (req : Request) : Request :=
  { req with Header := req.Header.Set "Content-Type" "application/vnd.api+json" }

/-- `jupiterBrainProvider.Start`. -/
def Start (L : Library) (p : jupiterBrainProvider) (env : StartEnv)
    (startAttributes : StartAttributes) : StartResult :=
  match L.urlParseRef p.baseURL "instances" with
  | .error e => (.returned (none, some (.external e)), [])
  | .ok u =>
    let imageName := getImageName p.imageAliases startAttributes
    if imageName = "" then
      (.returned (none, some (.errorf "no image alias for %#v" [.attrs startAttributes])), [])
    else
      let bodyPayload := [("data", [("type", "instances"), ("base-image", imageName)])]
      match newRequest L "POST" (L.urlString u) (some bodyPayload) with
      | .error e => (.returned (none, some (.external e)), [])
      | .ok req =>
        let req := createRequest req
        let r := httpDo req env.create
        match r.err with
        | some err => (.returned (none, some err), r.effects)
        | none =>
          match r.resp with
          | none => (.panicked, r.effects)
          | some resp =>
            if resp.StatusCode < 200 || resp.StatusCode ≥ 300 then
              (.returned (none, some (.errorf
                "expected 2xx from Jupiter Brain API, got %d (error: %s)"
                [.int resp.StatusCode, .str resp.Body])), r.effects)
            else
              match L.jsonDecode resp.Body with
              | .error e =>
                (.returned (none, some (.errorf "couldn't decode created payload: %s" [.str e])),
                  r.effects)
              | .ok dataPayload =>
                match dataPayload.Data with
                | [] => (.panicked, r.effects)
                | none :: _ => (.panicked, r.effects)
                | some payload :: _ =>
                  let rest := awaitBoot L p env imageName payload
                  (rest.1, r.effects ++ rest.2)

/-! ## RunScript -/

/-- The error `session.Run` returns when it is not nil: an `*ssh.ExitError`
with its exit status, or any other error. -/
inductive RunErr where
  | exit (status : Int)
  | other (msg : String)
deriving DecidableEq, Repr

/-- The error value of a `RunErr`. -/
def RunErr.toErr : RunErr → Err
  | .exit status => .exitError status
  | .other msg => .external msg

/-- The case the `select` of `RunScript` takes: `ctx.Done()`, or the receive
of what `session.Run` returned. -/
inductive RunEvent where
  | ctxDone (cause : CtxErr)
  | runReturned (err : Option RunErr)
deriving DecidableEq, Repr

/-- The outside of one `RunScript` call: for each library call the message of
its error, `none` when it succeeds, and the case the `select` takes. -/
structure RunEnv where
  /-- `ioutil.ReadFile(sshKeyPath)` -/
  readFile : Option String
  /-- `pem.Decode` found a block -/
  pemBlock : Bool
  /-- `x509.DecryptPEMBlock` -/
  decrypt : Option String
  /-- `x509.ParsePKCS1PrivateKey` -/
  parseKey : Option String
  /-- `ssh.NewSignerFromKey` -/
  newSigner : Option String
  /-- `ssh.Dial` -/
  dial : Option String
  /-- `client.NewSession` -/
  newSession : Option String
  /-- `session.RequestPty` -/
  requestPty : Option String
  event : RunEvent
deriving DecidableEq, Repr

/-- `backend.RunResult`; `ExitCode` is a `uint8`. -/
structure RunResult where
  Completed : Bool
  ExitCode : Nat
deriving DecidableEq, Repr

/-- The conversion `uint8(n)` of a Go `int`: the low eight bits. -/
def uint8 (n : Int) : Nat := (n % 256).toNat

/-- `jupiterBrainInstance.sshClient`: the error, `none` with a client. -/
def sshClient (L : Library) (i : jupiterBrainInstance) (env : RunEnv) : Outcome (Option Err) :=
  match env.readFile with
  | some e => .returned (some (.external e))
  | none =>
    if !env.pemBlock then
      .returned (some (.errorf "ssh key does not contain a valid PEM block" []))
    else
      match env.decrypt with
      | some e => .returned (some (.external e))
      | none =>
        match env.parseKey with
        | some e => .returned (some (.external e))
        | none =>
          match env.newSigner with
          | some e => .returned (some (.external e))
          | none =>
            match i.payload with
            | none => .panicked
            | some payload =>
              match firstIPv4 L payload.IPAddresses with
              | none => .returned (some (.errorf "no valid IPv4 address" []))
              | some _ =>
                match env.dial with
                | some e => .returned (some (.external e))
                | none => .returned none

/-- `jupiterBrainInstance.RunScript`. -/
def RunScript (L : Library) (i : jupiterBrainInstance) (env : RunEnv) :
    Outcome (RunResult × Option Err) :=
  match sshClient L i env with
  | .panicked => .panicked
  | .blocked => .blocked
  | .returned (some err) => .returned ({ Completed := false, ExitCode := 0 }, some err)
  | .returned none =>
    match env.newSession with
    | some e => .returned ({ Completed := false, ExitCode := 0 }, some (.external e))
    | none =>
      match env.requestPty with
      | some e => .returned ({ Completed := false, ExitCode := 0 }, some (.external e))
      | none =>
        match env.event with
        | .ctxDone cause => .returned ({ Completed := false, ExitCode := 0 }, some cause.toErr)
        | .runReturned none => .returned ({ Completed := true, ExitCode := 0 }, none)
        | .runReturned (some (.exit status)) =>
          .returned ({ Completed := true, ExitCode := uint8 status }, none)
        | .runReturned (some (.other msg)) =>
          .returned ({ Completed := false, ExitCode := 0 }, some (.external msg))

/-! ## The step that opens the log writer -/

/-- A call the step makes on the `LogWriter` interface. -/
inductive LogWriterCall where
  | SetTimeout (d : Int)
  | SetMaxLogLength (n : Int)
  | Write (p : String)
deriving DecidableEq, Repr

/-- A value of the `LogWriter` interface, whose implementation is not among
the sources: it is known by the calls it has received, in order. -/
structure LogWriter where
  calls : List LogWriterCall
deriving DecidableEq, Repr

/-- Modelled from the spec: `SetTimeout(d)` tunes the flush cadence, so the
timeout of a writer is the argument of the last `SetTimeout` it received. -/
def LogWriter.timeout (w : LogWriter) : Option Int :=
  w.calls.reverse.findSome? fun
    | .SetTimeout d => some d
    | _ => none

/-- Modelled from the spec: `SetMaxLogLength(n)` tunes the cap, so the
maximal log length of a writer is the argument of the last `SetMaxLogLength`
it received. -/
def LogWriter.maxLogLength (w : LogWriter) : Option Int :=
  w.calls.reverse.findSome? fun
    | .SetMaxLogLength n => some n
    | _ => none

/-- A value of the `Job` interface, whose implementations are not among the
sources: what its `LogWriter(ctx)` returns and the error of its `Requeue()`. -/
structure Job where
  logWriter : Except Err LogWriter
  requeue : Option Err
deriving Repr

/-- A value of the `backend.Instance` interface: what its `ID()` returns. -/
structure Instance where
  ID : String
deriving DecidableEq, Repr

/-- A value stored in the state bag (an `interface{}`), by dynamic type. -/
inductive Value where
  | ctx
  | job (j : Job)
  | inst (i : Instance)
  | str (s : String)
  | logWriter (w : LogWriter)
deriving Repr

/-- The `multistep.StateBag`: `Get` of a missing key is nil. -/
abbrev StateBag := List (String × Value)

/-- `state.Get(key)`. -/
def StateBag.Get (state : StateBag) (key : String) : Option Value := List.lookup key state

/-- `state.Put(key, value)`. -/
def StateBag.Put (state : StateBag) (key : String) (value : Value) : StateBag :=
  (key, value) :: state

/-- `multistep.StepAction`. -/
inductive StepAction where
  | ActionContinue
  | ActionHalt
deriving DecidableEq, Repr

/-- The step `stepOpenLogWriter`. -/
structure stepOpenLogWriter where
  logTimeout : Int
  maxLogLength : Int
deriving DecidableEq, Repr

/-- What `Run` leaves behind: the action, the state, and the number of
`Requeue()` calls made on the job. -/
structure StepResult where
  action : StepAction
  state : StateBag
  requeues : Nat
deriving Repr

/-- The banner written when the host name is known:
`fmt.Sprintf("Using worker: %s (%s)\n\n", hostname, instance.ID())`. -/
def banner (hostname : String) (inst : Instance) : String :=
  "Using worker: " ++ hostname ++ " (" ++ inst.ID ++ ")\n\n"

/-- `stepOpenLogWriter.Run`. The three type assertions at its head panic on a
missing key or a value of another type; the one on `hostname` is of the
comma-ok form. -/
def stepOpenLogWriter.Run (s : stepOpenLogWriter) (state : StateBag) : Outcome StepResult :=
  match state.Get "ctx" with
  | some .ctx =>
    match state.Get "buildJob" with
    | some (.job buildJob) =>
      match state.Get "instance" with
      | some (.inst inst) =>
        match buildJob.logWriter with
        | .error _ =>
          match buildJob.requeue with
          | some _ => .returned { action := .ActionHalt, state := state, requeues := 1 }
          | none => .returned { action := .ActionHalt, state := state, requeues := 1 }
        | .ok logWriter =>
          let logWriter : LogWriter := { calls := logWriter.calls ++ [.SetTimeout s.logTimeout] }
          let logWriter : LogWriter :=
            { calls := logWriter.calls ++ [.SetMaxLogLength s.maxLogLength] }
          let logWriter : LogWriter :=
            match state.Get "hostname" with
            | some (.str hostname) =>
              if hostname ≠ "" then
                { calls := logWriter.calls ++ [.Write (banner hostname inst)] }
              else logWriter
            | _ => logWriter
          .returned
            { action := .ActionContinue
              state := state.Put "logWriter" (.logWriter logWriter)
              requeues := 0 }
      | _ => .panicked
    | _ => .panicked
  | _ => .panicked

/-- An instance of the sample provider. -/
def sampleInstance : jupiterBrainInstance where
  payload := some samplePayload
  provider := sampleProvider

/-- A `RunScript` call in which every library call succeeds and the `select`
takes the given case. -/
def sampleRunEnv (event : RunEvent) : RunEnv where
  readFile := none
  pemBlock := true
  decrypt := none
  parseKey := none
  newSigner := none
  dial := none
  newSession := none
  requestPty := none
  event := event

/-- Whether an error can come out of the boot phase of `Start` (the poller
and the `select`): of the errors made with `fmt.Errorf`, only the poller's two. -/
def Err.isBootError : Err → Bool
  | .errorf format _ =>
    format == "unknown status code: %d, expected 200 (body: %q)" ||
      format == "couldn't decode refresh payload: %s"
  | _ => true

/-- A `Start` call on the sample provider: the create request is answered
with 201 and the sample body, the poller's one GET is answered with 200 and
the sample body and its dial fails; the rest is given. -/
def sampleStartEnv (select : SelectCase) (stop : Attempts) : StartEnv where
  create := ⟨.response ⟨201, sampleBody⟩, []⟩
  polls := [⟨⟨.response ⟨200, sampleBody⟩, []⟩, false⟩]
  select := select
  stop := stop

/-- The DELETE request `Stop` sends for the sample instance. -/
def sampleDelete : Request where
  Method := "DELETE"
  URL := { Scheme := "http", User := none, Host := "jb.example.com", Path := "/instances/vm-1" }
  Header := [("Authorization", ["token token"])]
  Body := none

/-- A job whose log writer opens, fresh. -/
def sampleJob : Job where
  logWriter := .ok { calls := [] }
  requeue := none

/-- A pipeline state holding ctx, buildJob, instance and a host name. -/
def sampleState : StateBag :=
  [("ctx", .ctx), ("buildJob", .job sampleJob), ("instance", .inst ⟨"vm-1:"⟩),
    ("hostname", .str "worker-1")]

/-- The precedence list of the specification, section 4.2, items 1 to 9. -/
def precedenceList (a : StartAttributes) : List String :=
  [ a.OsxImage,
    "osx_image_" ++ a.OsxImage,
    "osx_image_" ++ a.OsxImage ++ "_" ++ a.Language,
    "dist_" ++ a.Dist ++ "_" ++ a.Language,
    "dist_" ++ a.Dist,
    "group_" ++ a.Group ++ "_" ++ a.Language,
    "group_" ++ a.Group,
    "language_" ++ a.Language,
    "default_" ++ a.OS ]

/-- The alias key as the specification words it: the alias uppercased, with
every character that is not a letter or a digit replaced by an underscore. -/
def specImageAliasKey (aliasName : String) : String :=
  "IMAGE_ALIAS_" ++
    String.mk ((aliasName.data.map Char.toUpper).map fun c => if c.isAlphanum then c else '_')

/-! ## The AMQP log writer -/

/-- Modelled from the spec: the log-part record of section 3 (the type
`amqpLogPart` is declared in `amqp_log_writer.go`, which is not among the
sources; the tests compare values of it field by field). -/
structure amqpLogPart where
  JobID : Nat
  Content : String
  Number : Nat
  UUID : String
  Final : Bool
deriving DecidableEq, Repr

/-- The error a `Write` of the log writer returns. -/
inductive WriteErr where
  /-- the write would take the log past its maximal length, or the writer is
  already capped -/
  | pastMaxLogLength
  /-- the writer is closed -/
  | closedLog
deriving DecidableEq, Repr

/-- Modelled from the spec: the AMQP log writer of section 4.3
(`amqp_log_writer.go` is not among the sources). It holds the job id and UUID
its parts carry, the two tunables, the high-water mark of the buffer (which the
spec leaves to the implementation), the text of the truncation warning, the
buffer, the bytes accepted so far, whether it is capped or closed, the number
of the next part, and the parts published on the logs queue, oldest first.
Publishing is taken to succeed. -/
structure amqpLogWriter where
  jobID : Nat
  uuid : String
  maxLength : Int
  timeout : Int
  highWater : Nat
  warning : String
  buffer : String
  bytesWritten : Nat
  capped : Bool
  closed : Bool
  logPartNumber : Nat
  published : List amqpLogPart
deriving DecidableEq, Repr

/-- Modelled from the spec: `SetMaxLogLength(n)` tunes the cap. -/
def amqpLogWriter.SetMaxLogLength (w : amqpLogWriter) (n : Int) : amqpLogWriter :=
  { w with maxLength := n }

/-- Modelled from the spec: `SetTimeout(d)` tunes the flush cadence. -/
def amqpLogWriter.SetTimeout (w : amqpLogWriter) (d : Int) : amqpLogWriter :=
  { w with timeout := d }

/-- Modelled from the spec: publishing one part: it carries the writer's job
id and UUID and the next number, and the counter is incremented. -/
def amqpLogWriter.publish (w : amqpLogWriter) (content : String) (final : Bool) :
    amqpLogWriter :=
  { w with
    published := w.published ++
      [{ JobID := w.jobID, Content := content, Number := w.logPartNumber, UUID := w.uuid,
         Final := final }]
    logPartNumber := w.logPartNumber + 1 }

/-- Modelled from the spec: a flush emits one non-final part with the buffered
bytes verbatim and empties the buffer; an empty buffer emits nothing (non-final
parts have non-empty content). -/
def amqpLogWriter.flush (w : amqpLogWriter) : amqpLogWriter :=
  if w.buffer = "" then w
  else { w.publish w.buffer false with buffer := "" }

/-- Modelled from the spec: the expiry of the flush timer flushes; nothing is
emitted after the final part. -/
def amqpLogWriter.timerExpired (w : amqpLogWriter) : amqpLogWriter :=
  if w.closed then w else w.flush

/-- Modelled from the spec: `Write(bytes)`. If accepting the bytes would push
the total past the maximal length, the writer emits the warning part, marks
itself capped and returns an error; later writes also return an error.
Otherwise the bytes are appended to the buffer, which is flushed when it
reaches the high-water mark. A closed writer accepts nothing (the final part is
the last part emitted). -/
def amqpLogWriter.Write (w : amqpLogWriter) (p : String) : amqpLogWriter × Option WriteErr :=
  if w.closed then (w, some .closedLog)
  else if w.capped then (w, some .pastMaxLogLength)
  else if ((w.bytesWritten + p.utf8ByteSize : Nat) : Int) > w.maxLength then
    ({ w.publish w.warning false with capped := true }, some .pastMaxLogLength)
  else
    let w : amqpLogWriter :=
      { w with buffer := w.buffer ++ p, bytesWritten := w.bytesWritten + p.utf8ByteSize }
    (if w.buffer.utf8ByteSize ≥ w.highWater then w.flush else w, none)

/-- What happens to a log writer between its opening and its `Close`: a
`Write` call, or the expiry of the flush timer. -/
inductive LogEvent where
  | write (p : String)
  | timer
deriving DecidableEq, Repr

/-- The writer after one event (the error of a `Write` is dropped). -/
def amqpLogWriter.step (w : amqpLogWriter) : LogEvent → amqpLogWriter
  | .write p => (w.Write p).1
  | .timer => w.timerExpired

/-- The writer after a sequence of events. -/
def amqpLogWriter.run (w : amqpLogWriter) (events : List LogEvent) : amqpLogWriter :=
  events.foldl amqpLogWriter.step w

/-- The total length of the writes, in bytes. -/
def totalLength (writes : List String) : Nat :=
  (writes.map String.utf8ByteSize).sum

/-- A response body whose `data` list is empty. -/
def emptyDataBody : String := "\x7b\"data\":[]\x7d"

/-- A response body whose `data` list holds a null entry. -/
def nullEntryBody : String := "\x7b\"data\":[null]\x7d"

/-- A response body without a `data` member. -/
def noDataBody : String := "\x7b\x7d"

/-- The sample library, decoding three more response bodies as
`encoding/json` does: an empty `data` list, a `data` list with a null entry (a
nil pointer in the slice), and an object without `data` (a nil slice). -/
def lenientLibrary : Library :=
  { sampleLibrary with
    jsonDecode := fun s =>
      if s = sampleBody then .ok { Data := [some samplePayload] }
      else if s = emptyDataBody then .ok { Data := [] }
      else if s = nullEntryBody then .ok { Data := [none] }
      else if s = noDataBody then .ok { Data := [] }
      else .error "json: input outside the sample library" }

/-- A `Start` call whose create request is answered with 201 and the given
body, and whose poller's one GET is answered with 200 and the given body. -/
def decodeStartEnv (createBody pollBody : String) : StartEnv where
  create := ⟨.response ⟨201, createBody⟩, []⟩
  polls := [⟨⟨.response ⟨200, pollBody⟩, []⟩, true⟩]
  select := .poller
  stop := ⟨.response ⟨204, ""⟩, []⟩

/-- A pipeline state as the first two steps of the standard sequence leave
it: ctx and buildJob, no instance; without and with a host name. -/
def stateBeforeStart (hostname : Option String) : StateBag :=
  match hostname with
  | none => [("ctx", .ctx), ("buildJob", .job sampleJob)]
  | some h => [("ctx", .ctx), ("buildJob", .job sampleJob), ("hostname", .str h)]

/-- Whether a character is in the set the metric name is meant to keep:
ASCII letters, digits, `.`, `:`, `-` and `_`. -/
def isIntendedMetricChar (c : Char) : Bool :=
  ('A' ≤ c && c ≤ 'Z') || ('a' ≤ c && c ≤ 'z') || ('0' ≤ c && c ≤ '9') || c == '.' ||
    c == ':' || c == '-' || c == '_'

/-- The sample provider with an image name that holds an `@`. -/
def atProvider : jupiterBrainProvider :=
  { sampleProvider with imageAliases := [("default_linux", "travis@ci--linux")] }

/-- The sanitized metric name as the claim words it: every maximal run of
characters other than ASCII letters, digits, `.`, `:`, `-` and `_` replaced by
one `-`. -/
def intendedMetricName (imageName : String) : String :=
  replaceRuns isIntendedMetricChar "-" imageName

/-- The maximal runs of a string with respect to a character class: the
string cut into stretches of consecutive characters that are all inside the
class or all outside it, each stretch with the side it is on (`true` for
inside); neighbouring stretches are on different sides. -/
def maximalRuns (cls : Char → Bool) : List Char → List (Bool × List Char)
  | [] => []
  | c :: cs =>
    match maximalRuns cls cs with
    | (inClass, run) :: rest =>
      if inClass = cls c then (inClass, c :: run) :: rest
      else (cls c, [c]) :: (inClass, run) :: rest
    | [] => [(cls c, [c])]

/-- The characters of a list of runs, in order. -/
def runsText : List (Bool × List Char) → List Char
  | [] => []
  | r :: rest => r.2 ++ runsText rest

/-- A list of runs with every run outside the class replaced by `repl` and
every run inside the class kept. -/
def renderRuns (repl : List Char) : List (Bool × List Char) → List Char
  | [] => []
  | (true, run) :: rest => run ++ renderRuns repl rest
  | (false, _) :: rest => repl ++ renderRuns repl rest

/-- A list of runs without its first run when that run is outside the class. -/
def dropOutside : List (Bool × List Char) → List (Bool × List Char)
  | (false, _) :: rest => rest
  | rs => rs

/-- The alias key as the amended claim words it: IMAGE_ALIAS_ followed by
the alias with every maximal run of characters other than ASCII letters, digits
and the underscore replaced by a single underscore, and then uppercased. -/
def amendedImageAliasKey (aliasName : String) : String :=
  "IMAGE_ALIAS_" ++
    String.mk ((renderRuns ['_']
      (maximalRuns (fun c => c.isAlphanum || c == '_') aliasName.data)).map Char.toUpper)

theorem lookupFirst_of_first_hit (m : StrMap) (keys : List String) (i : Nat)
    (key imageName : String) (hkey : keys[i]? = some key)
    (hhit : m.get? key = some imageName)
    (hmiss : ∀ (j : Nat) (key' : String), j < i → keys[j]? = some key' → m.get? key' = none) :
    lookupFirst m keys = imageName := by
  induction keys generalizing i with
  | nil => simp at hkey
  | cons k ks ih =>
    cases i with
    | zero =>
      simp at hkey
      subst hkey
      simp [lookupFirst, hhit]
    | succ n =>
      have h0 : m.get? k = none := hmiss 0 k (Nat.succ_pos n) (by simp)
      simp only [lookupFirst, h0]
      refine ih n (by simpa using hkey) ?_
      intro j key' hj hk
      exact hmiss (j + 1) key' (Nat.succ_lt_succ hj) (by simpa using hk)

theorem lookupFirst_eq_empty_iff (m : StrMap) (keys : List String) :
    lookupFirst m keys = "" ↔
      (∀ key ∈ keys, m.get? key = none) ∨
      (∃ i key, keys[i]? = some key ∧ m.get? key = some "" ∧
        ∀ (j : Nat) (key' : String), j < i → keys[j]? = some key' → m.get? key' = none) := by
  induction keys with
  | nil => simp [lookupFirst]
  | cons k ks ih =>
    cases hk : m.get? k with
    | some v =>
      simp only [lookupFirst, hk]
      constructor
      · intro hv
        right
        refine ⟨0, k, by simp, by rw [hk, hv], ?_⟩
        intro j key' hj
        exact absurd hj (Nat.not_lt_zero j)
      · rintro (hnone | ⟨i, key, hkey, hhit, hmiss⟩)
        · have := hnone k (List.mem_cons_self k ks)
          rw [hk] at this
          cases this
        · cases i with
          | zero =>
            simp at hkey
            subst hkey
            rw [hk] at hhit
            exact Option.some.inj hhit
          | succ n =>
            have := hmiss 0 k (Nat.succ_pos n) (by simp)
            rw [hk] at this
            cases this
    | none =>
      simp only [lookupFirst, hk]
      rw [ih]
      constructor
      · rintro (hnone | ⟨i, key, hkey, hhit, hmiss⟩)
        · left
          intro key hmem
          rcases List.mem_cons.mp hmem with rfl | h
          · exact hk
          · exact hnone key h
        · right
          refine ⟨i + 1, key, by simpa using hkey, hhit, ?_⟩
          intro j key' hj hkey'
          cases j with
          | zero =>
            simp at hkey'
            subst hkey'
            exact hk
          | succ n =>
            exact hmiss n key' (Nat.lt_of_succ_lt_succ hj) (by simpa using hkey')
      · rintro (hnone | ⟨i, key, hkey, hhit, hmiss⟩)
        · left
          intro key hmem
          exact hnone key (List.mem_cons_of_mem k hmem)
        · cases i with
          | zero =>
            simp at hkey
            subst hkey
            rw [hk] at hhit
            cases hhit
          | succ n =>
            right
            refine ⟨n, key, by simpa using hkey, hhit, ?_⟩
            intro j key' hj hkey'
            exact hmiss (j + 1) key' (Nat.succ_lt_succ hj) (by simpa using hkey')

/-- C1: `getImageName` returns the alias-table value of the first key of the
precedence list (osx_image, osx_image_X, osx_image_X_lang, dist_D_lang, dist_D,
group_G_lang, group_G, language_lang, default_os, in this order) that is
present in the table: if the key at position `i` is present with value
`imageName` and no key before it is present, the result is `imageName`. -/
theorem getImageName_first_hit (imageAliases : StrMap) (a : StartAttributes) (i : Nat)
    (key imageName : String) (hkey : (precedenceList a)[i]? = some key)
    (hhit : imageAliases.get? key = some imageName)
    (hmiss : ∀ (j : Nat) (key' : String), j < i → (precedenceList a)[j]? = some key' →
      imageAliases.get? key' = none) :
    getImageName imageAliases a = imageName :=
  lookupFirst_of_first_hit imageAliases (imageNameKeys a) i key imageName hkey hhit hmiss

theorem getImageName_first_hit_witness :
    getImageName [("default_linux", "d1"), ("language_ruby", "r1")]
      ⟨"ruby", "", "", "", "linux"⟩ = "r1" :=
  getImageName_first_hit [("default_linux", "d1"), ("language_ruby", "r1")]
    ⟨"ruby", "", "", "", "linux"⟩ 7 "language_ruby" "r1" (by decide) (by decide)
    (by
      intro j key' hj hk
      have hj' : j = 0 ∨ j = 1 ∨ j = 2 ∨ j = 3 ∨ j = 4 ∨ j = 5 ∨ j = 6 := by omega
      rcases hj' with rfl | rfl | rfl | rfl | rfl | rfl | rfl <;>
        (simp [precedenceList] at hk; subst hk; decide))

/-- C2, as stated, fails: construction from a configuration that sets
`IMAGE_ALIAS_RUBY` to the empty string yields a table in which the key `ruby`
is present, and `getImageName` returns the empty string for `osx_image = ruby`. -/
theorem getImageName_empty_although_hit :
    ∃ p, newJupiterBrainProvider sampleLibrary (sampleConfig "ruby" "IMAGE_ALIAS_RUBY" "") = .ok p ∧
      ¬ (getImageName p.imageAliases ⟨"", "ruby", "", "", ""⟩ = "" ↔
          ∀ key ∈ precedenceList ⟨"", "ruby", "", "", ""⟩, p.imageAliases.get? key = none) := by
  refine ⟨_, rfl, ?_⟩
  decide

/-! ## Provider construction -/

theorem replaceRunsAux_of_class (cls : Char → Bool) (repl : List Char) (inRun : Bool)
    (s : List Char) (h : ∀ c ∈ s, cls c = true) : replaceRunsAux cls repl inRun s = s := by
  induction s generalizing inRun with
  | nil => rfl
  | cons c cs ih =>
    have hc : cls c = true := h c (List.mem_cons_self c cs)
    simp only [replaceRunsAux, hc, if_true]
    rw [ih false (fun d hd => h d (List.mem_cons_of_mem c hd))]

theorem replaceRunsAux_class_append (cls : Char → Bool) (repl : List Char) (inRun : Bool)
    (pre rest : List Char) (hpre : pre ≠ []) (h : ∀ c ∈ pre, cls c = true) :
    replaceRunsAux cls repl inRun (pre ++ rest) = pre ++ replaceRunsAux cls repl false rest := by
  induction pre generalizing inRun with
  | nil => exact absurd rfl hpre
  | cons c cs ih =>
    have hc : cls c = true := h c (List.mem_cons_self c cs)
    simp only [List.cons_append, replaceRunsAux, hc, if_true, List.append_eq]
    cases cs with
    | nil => rfl
    | cons d ds =>
      rw [ih false (by simp) (fun x hx => h x (List.mem_cons_of_mem c hx))]

theorem replaceRunsAux_in_run (cls : Char → Bool) (repl : List Char) (run rest : List Char)
    (h : ∀ c ∈ run, cls c = false) :
    replaceRunsAux cls repl true (run ++ rest) = replaceRunsAux cls repl true rest := by
  induction run with
  | nil => rfl
  | cons c cs ih =>
    have hc : cls c = false := h c (List.mem_cons_self c cs)
    simp only [List.cons_append, replaceRunsAux, hc, Bool.false_eq_true, if_false, if_true,
      List.append_eq]
    exact ih (fun d hd => h d (List.mem_cons_of_mem c hd))

/-- A maximal run of characters outside the class, followed by the end of the
string or by a character of the class, is replaced by one copy of `repl`. -/
theorem replaceRunsAux_run (cls : Char → Bool) (repl : List Char) (run rest : List Char)
    (hrun : run ≠ []) (h : ∀ c ∈ run, cls c = false)
    (hrest : rest = [] ∨ ∃ c cs, rest = c :: cs ∧ cls c = true) :
    replaceRunsAux cls repl false (run ++ rest) = repl ++ replaceRunsAux cls repl false rest := by
  cases run with
  | nil => exact absurd rfl hrun
  | cons c cs =>
    have hc : cls c = false := h c (List.mem_cons_self c cs)
    simp only [List.cons_append, replaceRunsAux, hc, Bool.false_eq_true, if_false,
      List.append_eq]
    rw [replaceRunsAux_in_run cls repl cs rest (fun d hd => h d (List.mem_cons_of_mem c hd))]
    rcases hrest with rfl | ⟨d, ds, rfl, hd⟩
    · rfl
    · simp [replaceRunsAux, hd]

theorem buildImageAliases_ok (cfg : ProviderConfig) (names : List String) (m m' : StrMap)
    (h : buildImageAliases cfg names m = .ok m') (k : String) :
    (k ∈ names → cfg.IsSet (imageAliasKey k) = true ∧
        m'.get? k = some (cfg.Get (imageAliasKey k))) ∧
      (k ∉ names → m'.get? k = m.get? k) := by
  induction names generalizing m with
  | nil =>
    simp only [buildImageAliases, Except.ok.injEq] at h
    subst h
    simp
  | cons n ns ih =>
    simp only [buildImageAliases] at h
    cases hset : cfg.IsSet (imageAliasKey n) with
    | false => simp [hset] at h
    | true =>
      simp only [hset, Bool.not_true, Bool.false_eq_true, if_false] at h
      have ih' := ih _ h
      by_cases hmem : k ∈ ns
      · refine ⟨fun _ => ih'.1 hmem, fun hnot => ?_⟩
        exact absurd (List.mem_cons_of_mem n hmem) hnot
      · refine ⟨fun hk => ?_, fun hnot => ?_⟩
        · have hkn : k = n := by
            rcases List.mem_cons.mp hk with h1 | h1
            · exact h1
            · exact absurd h1 hmem
          subst hkn
          refine ⟨hset, ?_⟩
          rw [ih'.2 hmem]
          simp [StrMap.get?, StrMap.set, List.lookup]
        · have hkn : ¬ k = n := fun e => hnot (e ▸ List.mem_cons_self n ns)
          rw [ih'.2 hmem]
          have : (k == n) = false := by simpa using hkn
          simp [StrMap.get?, StrMap.set, List.lookup, this]

theorem newJupiterBrainProvider_ok_aliases (L : Library) (cfg : ProviderConfig)
    (p : jupiterBrainProvider) (h : newJupiterBrainProvider L cfg = .ok p) :
    buildImageAliases cfg (splitComma (cfg.Get "IMAGE_ALIASES")) [] = .ok p.imageAliases := by
  unfold newJupiterBrainProvider at h
  split at h
  · cases h
  split at h
  · cases h
  simp only at h
  split at h
  · cases h
  split at h
  · cases h
  rename_i m hm
  split at h
  · cases h
  split at h
  · cases h
  split at h
  · cases h
  split at h
  · cases h
  simp only [Except.ok.injEq] at h
  subst h
  exact hm

theorem newJupiterBrainProvider_ok_keys (L : Library) (cfg : ProviderConfig)
    (p : jupiterBrainProvider) (h : newJupiterBrainProvider L cfg = .ok p) :
    cfg.IsSet "ENDPOINT" = true ∧ cfg.IsSet "IMAGE_ALIASES" = true ∧
      cfg.IsSet "SSH_KEY_PATH" = true ∧ cfg.IsSet "SSH_KEY_PASSPHRASE" = true ∧
      cfg.IsSet "KEYCHAIN_PASSWORD" = true := by
  unfold newJupiterBrainProvider at h
  split at h
  · cases h
  rename_i h1
  split at h
  · cases h
  rename_i h2
  simp only at h
  split at h
  · cases h
  split at h
  · cases h
  split at h
  · cases h
  rename_i h3
  split at h
  · cases h
  rename_i h4
  split at h
  · cases h
  rename_i h5
  simp only [Bool.not_eq_true', Bool.not_eq_false] at h1 h2 h3 h4 h5
  simp_all

/-- C7: when one of the keys ENDPOINT, IMAGE_ALIASES, SSH_KEY_PATH,
SSH_KEY_PASSPHRASE, KEYCHAIN_PASSWORD is not set, `newJupiterBrainProvider`
returns an error and no provider. -/
theorem newJupiterBrainProvider_missing_key (L : Library) (cfg : ProviderConfig)
    (h : cfg.IsSet "ENDPOINT" = false ∨ cfg.IsSet "IMAGE_ALIASES" = false ∨
      cfg.IsSet "SSH_KEY_PATH" = false ∨ cfg.IsSet "SSH_KEY_PASSPHRASE" = false ∨
      cfg.IsSet "KEYCHAIN_PASSWORD" = false) :
    ∃ e, newJupiterBrainProvider L cfg = .error e := by
  cases hres : newJupiterBrainProvider L cfg with
  | error e => exact ⟨e, rfl⟩
  | ok p =>
    have hk := newJupiterBrainProvider_ok_keys L cfg p hres
    rcases h with h | h | h | h | h <;> simp [hk] at h

theorem newJupiterBrainProvider_missing_key_witness :
    ∃ e, newJupiterBrainProvider sampleLibrary
      ⟨[("ENDPOINT", "http://token@jb.example.com/"), ("IMAGE_ALIASES", "ruby"),
        ("IMAGE_ALIAS_RUBY", "r1"), ("SSH_KEY_PATH", "/keys/id_rsa"),
        ("SSH_KEY_PASSPHRASE", "secret")]⟩ = .error e :=
  newJupiterBrainProvider_missing_key sampleLibrary _
    (Or.inr (Or.inr (Or.inr (Or.inr (by decide)))))

/-- C8, as stated, fails: for the alias `a--b` the key the specification
names, IMAGE_ALIAS_A__B, is set, and yet construction fails, because the code
consults IMAGE_ALIAS_A_B: a run of non-alphanumeric characters becomes one
underscore, not one underscore per character. -/
theorem newJupiterBrainProvider_key_not_per_character :
    "a--b" ∈ splitComma ((sampleConfig "a--b" "IMAGE_ALIAS_A__B" "x").Get "IMAGE_ALIASES") ∧
      specImageAliasKey "a--b" = "IMAGE_ALIAS_A__B" ∧
      (sampleConfig "a--b" "IMAGE_ALIAS_A__B" "x").IsSet (specImageAliasKey "a--b") = true ∧
      imageAliasKey "a--b" = "IMAGE_ALIAS_A_B" ∧
      newJupiterBrainProvider sampleLibrary (sampleConfig "a--b" "IMAGE_ALIAS_A__B" "x")
        = .error (.errorf "expected image alias %q" [.str "a--b"]) :=
  ⟨by decide, by decide, by decide, by decide, rfl⟩

theorem maximalRuns_text (cls : Char → Bool) (s : List Char) :
    runsText (maximalRuns cls s) = s := by
  induction s with
  | nil => rfl
  | cons c cs ih =>
    cases hR : maximalRuns cls cs with
    | nil =>
      rw [hR] at ih
      simp only [runsText] at ih
      subst ih
      simp [maximalRuns, hR, runsText]
    | cons r rest =>
      obtain ⟨b, run⟩ := r
      rw [hR] at ih
      simp only [runsText] at ih
      by_cases hb : b = cls c
      · simp only [maximalRuns, hR, hb, if_true, runsText, List.cons_append]
        rw [ih]
      · simp only [maximalRuns, hR, hb, if_false, runsText]
        simp [ih]

theorem maximalRuns_uniform (cls : Char → Bool) (s : List Char) :
    ∀ r ∈ maximalRuns cls s, r.2 ≠ [] ∧ ∀ c ∈ r.2, cls c = r.1 := by
  induction s with
  | nil => simp [maximalRuns]
  | cons c cs ih =>
    cases hR : maximalRuns cls cs with
    | nil => simp [maximalRuns, hR]
    | cons r rest =>
      obtain ⟨b, run⟩ := r
      rw [hR] at ih
      have hhead := ih (b, run) (List.mem_cons_self _ _)
      have htail : ∀ r ∈ rest, r.2 ≠ [] ∧ ∀ c ∈ r.2, cls c = r.1 :=
        fun r hr => ih r (List.mem_cons_of_mem _ hr)
      by_cases hb : b = cls c
      · simp only [maximalRuns, hR, hb, if_true]
        intro r hr
        rcases List.mem_cons.mp hr with rfl | hr'
        · refine ⟨by simp, ?_⟩
          intro d hd
          rcases List.mem_cons.mp hd with rfl | hd'
          · rfl
          · rw [← hb]
            exact hhead.2 d hd'
        · exact htail r hr'
      · simp only [maximalRuns, hR, hb, if_false]
        intro r hr
        rcases List.mem_cons.mp hr with rfl | hr'
        · exact ⟨by simp, by simp⟩
        · exact ih r hr'

theorem maximalRuns_alternate (cls : Char → Bool) (s : List Char) :
    List.Chain' (fun a b => a.1 ≠ b.1) (maximalRuns cls s) := by
  induction s with
  | nil => simp [maximalRuns]
  | cons c cs ih =>
    cases hR : maximalRuns cls cs with
    | nil => simp [maximalRuns, hR]
    | cons r rest =>
      obtain ⟨b, run⟩ := r
      rw [hR] at ih
      by_cases hb : b = cls c
      · simp only [maximalRuns, hR, hb, if_true]
        cases rest with
        | nil => simp
        | cons r2 rest2 =>
          rw [List.chain'_cons] at ih ⊢
          exact ⟨by rw [← hb]; exact ih.1, ih.2⟩
      · simp only [maximalRuns, hR, hb, if_false]
        rw [List.chain'_cons]
        exact ⟨fun h => hb h.symm, ih⟩

theorem replaceRunsAux_eq_renderRuns (cls : Char → Bool) (repl : List Char) (s : List Char) :
    replaceRunsAux cls repl false s = renderRuns repl (maximalRuns cls s) ∧
      replaceRunsAux cls repl true s = renderRuns repl (dropOutside (maximalRuns cls s)) := by
  induction s with
  | nil => simp [replaceRunsAux, maximalRuns, renderRuns, dropOutside]
  | cons c cs ih =>
    obtain ⟨ih1, ih2⟩ := ih
    cases hR : maximalRuns cls cs with
    | nil =>
      rw [hR] at ih1 ih2
      cases hc : cls c <;>
        simp [replaceRunsAux, maximalRuns, renderRuns, dropOutside, hc, hR, ih1, ih2]
    | cons r rest =>
      obtain ⟨b, run⟩ := r
      rw [hR] at ih1 ih2
      cases hc : cls c <;> cases b <;>
        simp [replaceRunsAux, maximalRuns, renderRuns, dropOutside, hc, hR, ih1, ih2] at *

theorem isAlphaNumUnderscore_eq (c : Char) :
    isAlphaNumUnderscore c = (c.isAlphanum || c == '_') := by
  have h1 : ∀ a b : Char, decide (a ≤ b) = decide (a.val ≤ b.val) := fun a b => rfl
  simp only [isAlphaNumUnderscore, Char.isAlphanum, Char.isAlpha, Char.isUpper, Char.isLower,
    Char.isDigit, h1]
  have e1 : ('a' : Char).val = 97 := rfl
  have e2 : ('z' : Char).val = 122 := rfl
  have e3 : ('A' : Char).val = 65 := rfl
  have e4 : ('Z' : Char).val = 90 := rfl
  have e5 : ('0' : Char).val = 48 := rfl
  have e6 : ('9' : Char).val = 57 := rfl
  rw [e1, e2, e3, e4, e5, e6]
  simp only [ge_iff_le]
  cases decide (97 ≤ c.val) <;> cases decide (c.val ≤ 122) <;> cases decide (65 ≤ c.val) <;>
    cases decide (c.val ≤ 90) <;> cases decide (48 ≤ c.val) <;> cases decide (c.val ≤ 57) <;>
    cases (c == '_') <;> rfl

/-- The key the construction loop consults is the key of the amended wording:
runs collapsed to one underscore, then uppercased. -/
theorem imageAliasKey_eq_amended (aliasName : String) :
    imageAliasKey aliasName = amendedImageAliasKey aliasName := by
  have hcls : isAlphaNumUnderscore = fun c => c.isAlphanum || c == '_' :=
    funext isAlphaNumUnderscore_eq
  unfold imageAliasKey amendedImageAliasKey normalizedAliasName toUpper replaceRuns
  rw [← hcls]
  have := (replaceRunsAux_eq_renderRuns isAlphaNumUnderscore ['_'] aliasName.data).1
  show "IMAGE_ALIAS_" ++
      String.mk ((replaceRunsAux isAlphaNumUnderscore ['_'] false aliasName.data).map
        Char.toUpper) = _
  rw [this]

/-- C8, amended: for every alias A of the comma-separated IMAGE_ALIASES list,
the key construction consults (`imageAliasKey`) is IMAGE_ALIAS_ followed by A
with every maximal run of characters other than ASCII letters, digits and the
underscore replaced by a single underscore and then uppercased
(`amendedImageAliasKey`); construction fails if that key is not set, and a
constructed provider maps A, as written, to that key's value. -/
theorem newJupiterBrainProvider_alias_table (L : Library) (cfg : ProviderConfig)
    (aliasName : String) (hA : aliasName ∈ splitComma (cfg.Get "IMAGE_ALIASES")) :
    imageAliasKey aliasName = amendedImageAliasKey aliasName ∧
      (cfg.IsSet (amendedImageAliasKey aliasName) = false →
        ∃ e, newJupiterBrainProvider L cfg = .error e) ∧
      (∀ p, newJupiterBrainProvider L cfg = .ok p →
        p.imageAliases.get? aliasName = some (cfg.Get (amendedImageAliasKey aliasName))) := by
  have hkey := imageAliasKey_eq_amended aliasName
  refine ⟨hkey, ?_, ?_⟩
  · intro hunset
    cases hres : newJupiterBrainProvider L cfg with
    | error e => exact ⟨e, rfl⟩
    | ok p =>
      have hb := newJupiterBrainProvider_ok_aliases L cfg p hres
      have := ((buildImageAliases_ok cfg _ _ _ hb aliasName).1 hA).1
      rw [hkey, hunset] at this
      cases this
  · intro p hres
    have hb := newJupiterBrainProvider_ok_aliases L cfg p hres
    rw [← hkey]
    exact ((buildImageAliases_ok cfg _ _ _ hb aliasName).1 hA).2

theorem newJupiterBrainProvider_alias_table_witness :
    amendedImageAliasKey "a--b" = "IMAGE_ALIAS_A_B" ∧
      (sampleConfig "a--b" "IMAGE_ALIAS_A__B" "x").IsSet (amendedImageAliasKey "a--b") = false ∧
      (∃ e, newJupiterBrainProvider sampleLibrary (sampleConfig "a--b" "IMAGE_ALIAS_A__B" "x")
        = .error e) ∧
      (∃ p, newJupiterBrainProvider sampleLibrary (sampleConfig "a--b" "IMAGE_ALIAS_A_B" "x")
          = .ok p ∧ p.imageAliases.get? "a--b" = some "x") :=
  ⟨by decide, by decide,
    (newJupiterBrainProvider_alias_table sampleLibrary
      (sampleConfig "a--b" "IMAGE_ALIAS_A__B" "x") "a--b" (by decide)).2.1 (by decide),
    ⟨_, rfl,
      ((newJupiterBrainProvider_alias_table sampleLibrary
        (sampleConfig "a--b" "IMAGE_ALIAS_A_B" "x") "a--b" (by decide)).2.2 _ rfl).trans
        (by decide)⟩⟩


/-! ## HTTP transport -/

theorem retry_effects (req : Request) (first : RoundTrip) (more : List RoundTrip) :
    (retry req first more).2 ≠ [] ∧ ∀ e ∈ (retry req first more).2, e = .send req := by
  induction more generalizing first with
  | nil => cases first <;> simp [retry]
  | cons next rest ih =>
    cases first with
    | response resp => simp [retry]
    | failed msg =>
      simp only [retry]
      refine ⟨by simp, ?_⟩
      intro e he
      rcases List.mem_cons.mp he with h | h
      · exact h
      · exact (ih next).2 e h

theorem retry_result (req : Request) (first : RoundTrip) (more : List RoundTrip) :
    (∃ resp, (retry req first more).1 = (some resp, none)) ∨
      (∃ msg, (retry req first more).1 = (none, some (.external msg))) := by
  induction more generalizing first with
  | nil => cases first <;> simp [retry]
  | cons next rest ih =>
    cases first with
    | response resp => simp [retry]
    | failed msg =>
      simp only [retry]
      exact ih next

theorem injectToken_idem (req : Request) : injectToken (injectToken req) = injectToken req := by
  unfold injectToken
  cases h : req.URL.User with
  | none => simp [h]
  | some user => simp

/-- C10: `httpDo` sends, at least once and on every attempt, one and the same
request. If the URL of the request it was given carries userinfo with username
`t`, the request sent is the given one with the header Authorization set to
"token " followed by `t` and with the userinfo removed from the URL; if the
URL carries no userinfo, the request sent is the given one, header unchanged.
Hence a second `httpDo` on the request object the first call left (as in the
poller's loop) sends the same request, token header included. -/
theorem httpDo_authorization (req : Request) (attempts : Attempts) :
    (httpDo req attempts).effects ≠ [] ∧
      (∀ e ∈ (httpDo req attempts).effects, e = .send (httpDo req attempts).req) ∧
      (∀ user, req.URL.User = some user →
        (httpDo req attempts).req =
            { req with
              URL := { req.URL with User := none }
              Header := req.Header.Set "Authorization" ("token " ++ user.username) } ∧
          (httpDo req attempts).req.Header.Get "Authorization" = "token " ++ user.username ∧
          (httpDo req attempts).req.URL.User = none) ∧
      (req.URL.User = none → (httpDo req attempts).req = req) ∧
      (∀ again : Attempts,
        (httpDo (httpDo req attempts).req again).req = (httpDo req attempts).req ∧
          ∀ e ∈ (httpDo (httpDo req attempts).req again).effects,
            e = .send (httpDo req attempts).req) := by
  refine ⟨?_, ?_, ?_, ?_, ?_⟩
  · exact (retry_effects _ _ _).1
  · exact (retry_effects _ _ _).2
  · intro user huser
    simp [httpDo, injectToken, huser, Header.Get, Header.Set, List.lookup]
  · intro hnone
    simp [httpDo, injectToken, hnone]
  · intro again
    have hidem : (httpDo (httpDo req attempts).req again).req = (httpDo req attempts).req := by
      simp [httpDo, injectToken_idem]
    refine ⟨hidem, ?_⟩
    intro e he
    have := (retry_effects (injectToken (injectToken req)) again.first again.more).2 e he
    rw [injectToken_idem] at this
    exact this

/-! ## RunScript -/

/-- What `sshClient` returns, read off the outcomes of the library calls, for
an instance with a payload: the error of the first call that fails, in the
order of the source, and a client only when none fails and the payload has an
IPv4 address. -/
theorem sshClient_cases (L : Library) (i : jupiterBrainInstance) (env : RunEnv)
    (payload : jupiterBrainInstancePayload) (hpayload : i.payload = some payload) :
    (∀ msg, env.readFile = some msg → sshClient L i env = .returned (some (.external msg))) ∧
      (env.readFile = none →
        (env.pemBlock = false →
          sshClient L i env =
            .returned (some (.errorf "ssh key does not contain a valid PEM block" []))) ∧
        (env.pemBlock = true →
          (∀ msg, env.decrypt = some msg →
            sshClient L i env = .returned (some (.external msg))) ∧
          (env.decrypt = none →
            (∀ msg, env.parseKey = some msg →
              sshClient L i env = .returned (some (.external msg))) ∧
            (env.parseKey = none →
              (∀ msg, env.newSigner = some msg →
                sshClient L i env = .returned (some (.external msg))) ∧
              (env.newSigner = none →
                (firstIPv4 L payload.IPAddresses = none →
                  sshClient L i env = .returned (some (.errorf "no valid IPv4 address" []))) ∧
                (∀ ip, firstIPv4 L payload.IPAddresses = some ip →
                  (∀ msg, env.dial = some msg →
                    sshClient L i env = .returned (some (.external msg))) ∧
                  (env.dial = none → sshClient L i env = .returned none))))))) := by
  refine ⟨fun msg h => ?_, fun h1 => ⟨fun h2 => ?_, fun h2 => ⟨fun msg h3 => ?_, fun h3 =>
    ⟨fun msg h4 => ?_, fun h4 => ⟨fun msg h5 => ?_, fun h5 => ⟨fun h6 => ?_, fun ip h6 =>
      ⟨fun msg h7 => ?_, fun h7 => ?_⟩⟩⟩⟩⟩⟩⟩
  · simp [sshClient, h]
  · simp [sshClient, h1, h2]
  · simp [sshClient, h1, h2, h3]
  · simp [sshClient, h1, h2, h3, h4]
  · simp [sshClient, h1, h2, h3, h4, h5]
  · simp [sshClient, h1, h2, h3, h4, h5, hpayload, h6]
  · simp [sshClient, h1, h2, h3, h4, h5, hpayload, h6, h7]
  · simp [sshClient, h1, h2, h3, h4, h5, hpayload, h6, h7]

theorem RunScript_cases (L : Library) (i : jupiterBrainInstance) (env : RunEnv)
    (payload : jupiterBrainInstancePayload) (hpayload : i.payload = some payload) :
    ∃ res err, RunScript L i env = .returned (res, err) ∧
      (res.Completed = true ↔
        (sshClient L i env = .returned none ∧ env.newSession = none ∧ env.requestPty = none ∧
          (env.event = .runReturned none ∨ ∃ status, env.event = .runReturned (some (.exit status))))) ∧
      (res.Completed = true ↔ err = none) ∧
      (∀ e, sshClient L i env = .returned (some e) → res.Completed = false ∧ err = some e) ∧
      (sshClient L i env = .returned none →
        (∀ msg, env.newSession = some msg → res.Completed = false ∧ err = some (.external msg)) ∧
        (env.newSession = none →
          (∀ msg, env.requestPty = some msg →
            res.Completed = false ∧ err = some (.external msg)) ∧
          (env.requestPty = none →
            (∀ cause, env.event = .ctxDone cause →
              res.Completed = false ∧ err = some cause.toErr) ∧
            (∀ msg, env.event = .runReturned (some (.other msg)) →
              res.Completed = false ∧ err = some (.external msg))))) := by
  have hssh : ∃ o, sshClient L i env = .returned o := by
    unfold sshClient
    rw [hpayload]
    simp only
    repeat' split
    all_goals exact ⟨_, rfl⟩
  obtain ⟨o, ho⟩ := hssh
  unfold RunScript
  rw [ho]
  cases o with
  | some e => exact ⟨_, _, rfl, by simp⟩
  | none =>
    cases hs : env.newSession with
    | some msg => exact ⟨_, _, rfl, by simp⟩
    | none =>
      cases hp : env.requestPty with
      | some msg => exact ⟨_, _, rfl, by simp⟩
      | none =>
        cases he : env.event with
        | ctxDone cause => exact ⟨_, _, rfl, by cases cause <;> simp [CtxErr.toErr]⟩
        | runReturned r =>
          cases r with
          | none => exact ⟨_, _, rfl, by simp⟩
          | some re =>
            cases re with
            | exit status => exact ⟨_, _, rfl, by simp⟩
            | other msg => exact ⟨_, _, rfl, by simp⟩

/-- C3: for an instance with a payload, `RunScript` returns, and its result
has Completed = true exactly when the SSH client, the session and the PTY were
obtained and the `select` received the return of `session.Run` with no error
or with an exit error; the returned error is nil in exactly those cases. When
the client, the session or the PTY cannot be obtained, when the `select` takes
the context's cancellation, and when `session.Run` returns another error,
Completed is false and the error returned is, respectively, that error, the
context's error, and the error of `session.Run`. The client is obtained
exactly when the key file is read, holds a PEM block, is decrypted and parsed,
a signer is made of it, the payload has an IPv4 address and the dial succeeds;
the failure of any of these, a refused connection included, gives Completed =
false with that failure's error. -/
theorem RunScript_completed (L : Library) (i : jupiterBrainInstance) (env : RunEnv)
    (payload : jupiterBrainInstancePayload) (hpayload : i.payload = some payload) :
    ∃ res err, RunScript L i env = .returned (res, err) ∧
      (res.Completed = true ↔
        (sshClient L i env = .returned none ∧ env.newSession = none ∧ env.requestPty = none ∧
          (env.event = .runReturned none ∨ ∃ status, env.event = .runReturned (some (.exit status))))) ∧
      (res.Completed = true ↔ err = none) ∧
      (∀ e, sshClient L i env = .returned (some e) → res.Completed = false ∧ err = some e) ∧
      (sshClient L i env = .returned none →
        (∀ msg, env.newSession = some msg → res.Completed = false ∧ err = some (.external msg)) ∧
        (env.newSession = none →
          (∀ msg, env.requestPty = some msg →
            res.Completed = false ∧ err = some (.external msg)) ∧
          (env.requestPty = none →
            (∀ cause, env.event = .ctxDone cause →
              res.Completed = false ∧ err = some cause.toErr) ∧
            (∀ msg, env.event = .runReturned (some (.other msg)) →
              res.Completed = false ∧ err = some (.external msg))))) ∧
      (sshClient L i env = .returned none ↔
        (env.readFile = none ∧ env.pemBlock = true ∧ env.decrypt = none ∧
          env.parseKey = none ∧ env.newSigner = none ∧
          (∃ ip, firstIPv4 L payload.IPAddresses = some ip) ∧ env.dial = none)) ∧
      (∀ msg, env.readFile = some msg → res.Completed = false ∧ err = some (.external msg)) ∧
      (env.readFile = none →
        (env.pemBlock = false →
          res.Completed = false ∧
            err = some (.errorf "ssh key does not contain a valid PEM block" [])) ∧
        (env.pemBlock = true →
          (∀ msg, env.decrypt = some msg →
            res.Completed = false ∧ err = some (.external msg)) ∧
          (env.decrypt = none →
            (∀ msg, env.parseKey = some msg →
              res.Completed = false ∧ err = some (.external msg)) ∧
            (env.parseKey = none →
              (∀ msg, env.newSigner = some msg →
                res.Completed = false ∧ err = some (.external msg)) ∧
              (env.newSigner = none →
                (firstIPv4 L payload.IPAddresses = none →
                  res.Completed = false ∧
                    err = some (.errorf "no valid IPv4 address" [])) ∧
                (∀ ip, firstIPv4 L payload.IPAddresses = some ip →
                  ∀ msg, env.dial = some msg →
                    res.Completed = false ∧ err = some (.external msg))))))) := by
  obtain ⟨res, err, hrun, h1, h2, h3, h4⟩ := RunScript_cases L i env payload hpayload
  obtain ⟨c1, c2⟩ := sshClient_cases L i env payload hpayload
  refine ⟨res, err, hrun, h1, h2, h3, h4, ?_, fun msg h => h3 _ (c1 msg h), fun hr =>
    ⟨fun hp => h3 _ ((c2 hr).1 hp), fun hp =>
      ⟨fun msg hd => h3 _ (((c2 hr).2 hp).1 msg hd), fun hd =>
        ⟨fun msg hk => h3 _ ((((c2 hr).2 hp).2 hd).1 msg hk), fun hk =>
          ⟨fun msg hs => h3 _ (((((c2 hr).2 hp).2 hd).2 hk).1 msg hs), fun hs =>
            ⟨fun hip => h3 _ ((((((c2 hr).2 hp).2 hd).2 hk).2 hs).1 hip), fun ip hip msg hdial =>
              h3 _ (((((((c2 hr).2 hp).2 hd).2 hk).2 hs).2 ip hip).1 msg hdial)⟩⟩⟩⟩⟩⟩
  constructor
  · intro hnone
    cases hr : env.readFile with
    | some msg => rw [c1 msg hr] at hnone; cases hnone
    | none =>
      cases hp : env.pemBlock with
      | false => rw [(c2 hr).1 hp] at hnone; cases hnone
      | true =>
        cases hd : env.decrypt with
        | some msg => rw [((c2 hr).2 hp).1 msg hd] at hnone; cases hnone
        | none =>
          cases hk : env.parseKey with
          | some msg => rw [(((c2 hr).2 hp).2 hd).1 msg hk] at hnone; cases hnone
          | none =>
            cases hs : env.newSigner with
            | some msg => rw [((((c2 hr).2 hp).2 hd).2 hk).1 msg hs] at hnone; cases hnone
            | none =>
              cases hip : firstIPv4 L payload.IPAddresses with
              | none => rw [(((((c2 hr).2 hp).2 hd).2 hk).2 hs).1 hip] at hnone; cases hnone
              | some ip =>
                cases hdial : env.dial with
                | some msg =>
                  rw [((((((c2 hr).2 hp).2 hd).2 hk).2 hs).2 ip hip).1 msg hdial] at hnone
                  cases hnone
                | none => exact ⟨rfl, rfl, rfl, rfl, rfl, ⟨ip, rfl⟩, rfl⟩
  · rintro ⟨hr, hp, hd, hk, hs, ⟨ip, hip⟩, hdial⟩
    exact ((((((c2 hr).2 hp).2 hd).2 hk).2 hs).2 ip hip).2 hdial

theorem RunScript_completed_witness :
    (∃ res err, RunScript sampleLibrary sampleInstance
        (sampleRunEnv (.runReturned (some (.exit 2)))) = .returned (res, err) ∧
      res.Completed = true ∧ err = none) ∧
    (∃ res err, RunScript sampleLibrary sampleInstance
        { sampleRunEnv (.runReturned none) with dial := some "ssh: connection refused" }
          = .returned (res, err) ∧
      res.Completed = false ∧ err = some (.external "ssh: connection refused")) := by
  constructor
  · obtain ⟨res, err, hrun, hiff, herr, _⟩ :=
      RunScript_completed sampleLibrary sampleInstance
        (sampleRunEnv (.runReturned (some (.exit 2)))) samplePayload rfl
    have hc : res.Completed = true :=
      hiff.mpr ⟨by decide, rfl, rfl, Or.inr ⟨2, rfl⟩⟩
    exact ⟨res, err, hrun, hc, herr.mp hc⟩
  · obtain ⟨res, err, hrun, _, _, _, _, _, _, hchain⟩ :=
      RunScript_completed sampleLibrary sampleInstance
        { sampleRunEnv (.runReturned none) with dial := some "ssh: connection refused" }
        samplePayload rfl
    have := (((((hchain rfl).2 rfl).2 rfl).2 rfl).2 rfl).2 "192.0.2.1" (by decide)
      "ssh: connection refused" rfl
    exact ⟨res, err, hrun, this.1, this.2⟩

/-- C4, as stated, fails: when the remote command finishes with exit status
256, the result's ExitCode is 0, not 256. -/
theorem RunScript_exit_status_256 :
    ∃ res, RunScript sampleLibrary sampleInstance
        (sampleRunEnv (.runReturned (some (.exit 256)))) = .returned (res, none) ∧
      res.Completed = true ∧ res.ExitCode = 0 ∧ (res.ExitCode : Int) ≠ 256 :=
  ⟨{ Completed := true, ExitCode := 0 }, by decide, rfl, rfl, by decide⟩

/-- C4, amended: when the remote command finishes with exit status `status`,
`RunScript` returns a completed result whose ExitCode is `status` modulo 256
(the conversion to `uint8`), which is `status` itself when it lies in 0..255;
on a clean exit the ExitCode is 0. -/
theorem RunScript_exit_code (L : Library) (i : jupiterBrainInstance) (env : RunEnv)
    (hclient : sshClient L i env = .returned none) (hsession : env.newSession = none)
    (hpty : env.requestPty = none) :
    (∀ status, env.event = .runReturned (some (.exit status)) →
        RunScript L i env = .returned ({ Completed := true, ExitCode := uint8 status }, none) ∧
          (uint8 status : Int) = status % 256 ∧
          (0 ≤ status → status < 256 → (uint8 status : Int) = status)) ∧
      (env.event = .runReturned none →
        RunScript L i env = .returned ({ Completed := true, ExitCode := 0 }, none)) := by
  constructor
  · intro status hev
    have hmod : (uint8 status : Int) = status % 256 := by
      unfold uint8
      exact Int.toNat_of_nonneg (Int.emod_nonneg status (by decide))
    refine ⟨by simp [RunScript, hclient, hsession, hpty, hev], hmod, ?_⟩
    intro h0 h256
    rw [hmod]
    exact Int.emod_eq_of_lt h0 h256
  · intro hev
    simp [RunScript, hclient, hsession, hpty, hev]

theorem RunScript_exit_code_witness :
    RunScript sampleLibrary sampleInstance (sampleRunEnv (.runReturned (some (.exit 2))))
      = .returned ({ Completed := true, ExitCode := uint8 2 }, none) :=
  ((RunScript_exit_code sampleLibrary sampleInstance
    (sampleRunEnv (.runReturned (some (.exit 2)))) (by decide) rfl rfl).1 2 rfl).1

/-! ## Start -/

theorem httpDo_result (req : Request) (attempts : Attempts) :
    (∃ resp, (httpDo req attempts).resp = some resp ∧ (httpDo req attempts).err = none) ∨
      (∃ msg, (httpDo req attempts).resp = none ∧
        (httpDo req attempts).err = some (.external msg)) := by
  rcases retry_result (injectToken req) attempts.first attempts.more with ⟨resp, h⟩ | ⟨msg, h⟩
  · left
    exact ⟨resp, by simp [httpDo, h]⟩
  · right
    exact ⟨msg, by simp [httpDo, h]⟩

theorem httpDo_err_of_resp (req : Request) (attempts : Attempts) (resp : Response)
    (h : (httpDo req attempts).resp = some resp) : (httpDo req attempts).err = none := by
  rcases httpDo_result req attempts with ⟨_, _, h2⟩ | ⟨_, h1, _⟩
  · exact h2
  · rw [h1] at h
    cases h

theorem httpDo_err_external (req : Request) (attempts : Attempts) (err : Err)
    (h : (httpDo req attempts).err = some err) : err.isBootError = true := by
  rcases httpDo_result req attempts with ⟨_, _, h2⟩ | ⟨msg, _, h2⟩
  · rw [h2] at h
    cases h
  · rw [h2] at h
    cases h
    rfl

theorem pollLoop_failed (L : Library) (p : jupiterBrainProvider) (req : Request)
    (rounds : List PollRound) (err : Err) (h : (pollLoop L p req rounds).1 = .failed err) :
    err.isBootError = true := by
  induction rounds generalizing req with
  | nil => simp [pollLoop] at h
  | cons round rest ih =>
    unfold pollLoop at h
    simp only at h
    split at h
    · rename_i e he
      simp only [PollerResult.failed.injEq] at h
      subst h
      exact httpDo_err_external _ _ _ he
    · split at h
      · cases h
      · split at h
        · simp only [PollerResult.failed.injEq] at h
          subst h
          rfl
        · split at h
          · simp only [PollerResult.failed.injEq] at h
            subst h
            rfl
          · split at h
            · cases h
            · cases h
            · split at h
              · exact ih _ h
              · split at h
                · cases h
                · exact ih _ h

theorem poller_failed (L : Library) (p : jupiterBrainProvider) (id : String)
    (rounds : List PollRound) (err : Err) (h : (poller L p id rounds).1 = .failed err) :
    err.isBootError = true := by
  unfold poller at h
  split at h
  · simp only [PollerResult.failed.injEq] at h
    subst h
    rfl
  · split at h
    · simp only [PollerResult.failed.injEq] at h
      subst h
      rfl
    · exact pollLoop_failed _ _ _ _ _ h

theorem stopAndReturn_err (L : Library) (p : jupiterBrainProvider)
    (payload : jupiterBrainInstancePayload) (env : StartEnv) (before : List Effect) (err : Err)
    (x : Option jupiterBrainInstance) (e : Option Err)
    (h : (stopAndReturn L p payload env before err).1 = .returned (x, e)) :
    x = none ∧ e = some err := by
  unfold stopAndReturn at h
  simp only at h
  split at h
  · simp only [Outcome.returned.injEq, Prod.mk.injEq] at h
    exact ⟨h.1.symm, h.2.symm⟩
  · cases h
  · cases h

theorem awaitBoot_err (L : Library) (p : jupiterBrainProvider) (env : StartEnv)
    (imageName : String) (payload : jupiterBrainInstancePayload)
    (x : Option jupiterBrainInstance) (e : Err)
    (h : (awaitBoot L p env imageName payload).1 = .returned (x, some e)) :
    e.isBootError = true := by
  unfold awaitBoot at h
  simp only at h
  split at h
  · cases h
  · cases h
  · rename_i err herr
    have := (stopAndReturn_err _ _ _ _ _ _ _ _ h).2
    cases this
    exact poller_failed _ _ _ _ _ herr
  · cases h
  · have := (stopAndReturn_err _ _ _ _ _ _ _ _ h).2
    cases this
    rfl
  · have := (stopAndReturn_err _ _ _ _ _ _ _ _ h).2
    cases this
    rfl

/-- C2, amended: `getImageName` returns the empty string if and only if none
of the nine precedence keys is present in the alias table or the first key
that is present maps to the empty string; and `Start`, once it has resolved
the URL of the instances collection, returns the error "no image alias for …"
exactly when `getImageName` returns the empty string. -/
theorem getImageName_empty_iff (imageAliases : StrMap) (a : StartAttributes) :
    (getImageName imageAliases a = "" ↔
      (∀ key ∈ precedenceList a, imageAliases.get? key = none) ∨
      (∃ i key, (precedenceList a)[i]? = some key ∧ imageAliases.get? key = some "" ∧
        ∀ (j : Nat) (key' : String), j < i → (precedenceList a)[j]? = some key' →
          imageAliases.get? key' = none)) ∧
      (∀ (L : Library) (p : jupiterBrainProvider) (env : StartEnv) (u : URL),
        p.imageAliases = imageAliases → L.urlParseRef p.baseURL "instances" = .ok u →
        ((Start L p env a).1 = .returned (none, some (.errorf "no image alias for %#v" [.attrs a]))
          ↔ getImageName imageAliases a = "")) := by
  refine ⟨lookupFirst_eq_empty_iff imageAliases (imageNameKeys a), ?_⟩
  intro L p env u hp hu
  subst hp
  constructor
  · intro hstart
    by_contra himage
    unfold Start at hstart
    simp only [hu, himage, if_false] at hstart
    split at hstart
    · cases hstart
    · split at hstart
      · rename_i err herr
        have := httpDo_err_external _ _ _ herr
        simp only [Outcome.returned.injEq, Prod.mk.injEq, Option.some.injEq, true_and] at hstart
        subst hstart
        exact absurd this (by simp [Err.isBootError])
      · split at hstart
        · cases hstart
        · split at hstart
          · simp only [Outcome.returned.injEq, Prod.mk.injEq, Option.some.injEq,
              Err.errorf.injEq] at hstart
            exact absurd hstart.2.1 (by decide)
          · split at hstart
            · simp only [Outcome.returned.injEq, Prod.mk.injEq, Option.some.injEq,
                Err.errorf.injEq] at hstart
              exact absurd hstart.2.1 (by decide)
            · split at hstart
              · cases hstart
              · cases hstart
              · have := awaitBoot_err _ _ _ _ _ _ _ hstart
                exact absurd this (by simp [Err.isBootError])
  · intro himage
    unfold Start
    simp only [hu, himage, if_true]

theorem newRequest_method (L : Library) (method urlStr : String)
    (body : Option (List (String × StrMap))) (req : Request)
    (h : newRequest L method urlStr body = .ok req) : req.Method = method := by
  unfold newRequest at h
  split at h
  · cases h
  · simp only [Except.ok.injEq] at h
    subst h
    rfl

theorem injectToken_method (req : Request) : (injectToken req).Method = req.Method := by
  unfold injectToken
  split <;> rfl

/-- C6: when the create request (POST instances) is answered with a status
code outside 200..299, `Start` returns no instance and the error
"expected 2xx from Jupiter Brain API, got %d (error: %s)" formatted with the
status code and the response body, and all it has done is send the POST
request: no GET of the poller, no DELETE. When the status code is inside
200..299, whatever `Start` returns is not that error. -/
theorem Start_create_status (L : Library) (p : jupiterBrainProvider) (env : StartEnv)
    (attrs : StartAttributes) (u : URL) (req : Request) (resp : Response)
    (hu : L.urlParseRef p.baseURL "instances" = .ok u)
    (himage : getImageName p.imageAliases attrs ≠ "")
    (hreq : newRequest L "POST" (L.urlString u)
      (some [("data", [("type", "instances"),
        ("base-image", getImageName p.imageAliases attrs)])]) = .ok req)
    (hresp : (httpDo (createRequest req) env.create).resp = some resp) :
    ((resp.StatusCode < 200 ∨ 300 ≤ resp.StatusCode) →
        Start L p env attrs =
          (.returned (none, some (.errorf
              "expected 2xx from Jupiter Brain API, got %d (error: %s)"
              [.int resp.StatusCode, .str resp.Body])),
            (httpDo (createRequest req) env.create).effects) ∧
          ∀ e ∈ (Start L p env attrs).2, ∃ r, e = .send r ∧ r.Method = "POST") ∧
      ((200 ≤ resp.StatusCode ∧ resp.StatusCode < 300) →
        ∀ x c body, (Start L p env attrs).1 ≠
          .returned (x, some (.errorf
            "expected 2xx from Jupiter Brain API, got %d (error: %s)" [.int c, .str body]))) := by
  have herr := httpDo_err_of_resp _ _ _ hresp
  constructor
  · intro hc
    have hcond : (decide (resp.StatusCode < 200) || decide (resp.StatusCode ≥ 300)) = true := by
      rcases hc with h | h <;> simp [h]
    have hstart : Start L p env attrs =
        (.returned (none, some (.errorf
            "expected 2xx from Jupiter Brain API, got %d (error: %s)"
            [.int resp.StatusCode, .str resp.Body])),
          (httpDo (createRequest req) env.create).effects) := by
      unfold Start
      simp only [hu, himage, if_false, hreq, herr, hresp, hcond, if_true]
    refine ⟨hstart, ?_⟩
    rw [hstart]
    intro e he
    refine ⟨_, (retry_effects _ _ _).2 e he, ?_⟩
    rw [injectToken_method]
    show req.Method = "POST"
    exact newRequest_method L _ _ _ _ hreq
  · intro hc x c body hcontra
    have hcond : (decide (resp.StatusCode < 200) || decide (resp.StatusCode ≥ 300)) = false := by
      have h1 : ¬ resp.StatusCode < 200 := by omega
      have h2 : ¬ resp.StatusCode ≥ 300 := by omega
      simp [h1, h2]
    unfold Start at hcontra
    simp only [hu, himage, if_false, hreq, herr, hresp, hcond, Bool.false_eq_true] at hcontra
    split at hcontra
    · simp only [Outcome.returned.injEq, Prod.mk.injEq, Option.some.injEq,
        Err.errorf.injEq] at hcontra
      exact absurd hcontra.2.1 (by decide)
    · split at hcontra
      · cases hcontra
      · cases hcontra
      · have := awaitBoot_err _ _ _ _ _ _ _ hcontra
        exact absurd this (by simp [Err.isBootError])

theorem Start_create_status_witness :
    Start sampleLibrary sampleProvider
        { create := ⟨.response ⟨500, "boom"⟩, []⟩, polls := [], select := .poller,
          stop := ⟨.failed "unused", []⟩ } sampleAttributes =
      (.returned (none, some (.errorf
          "expected 2xx from Jupiter Brain API, got %d (error: %s)" [.int 500, .str "boom"])),
        [.send
          { Method := "POST"
            URL := { Scheme := "http", User := none, Host := "jb.example.com", Path := "/instances" }
            Header := [("Authorization", ["token token"]),
              ("Content-Type", ["application/vnd.api+json"])]
            Body := some [("data", [("type", "instances"), ("base-image", "travis-linux")])] }]) :=
  ((Start_create_status sampleLibrary sampleProvider
    { create := ⟨.response ⟨500, "boom"⟩, []⟩, polls := [], select := .poller,
      stop := ⟨.failed "unused", []⟩ } sampleAttributes
    { Scheme := "http", User := some ⟨"token", none⟩, Host := "jb.example.com",
      Path := "/instances" }
    { Method := "POST"
      URL := { Scheme := "http", User := some ⟨"token", none⟩, Host := "jb.example.com",
               Path := "/instances" }
      Header := []
      Body := some [("data", [("type", "instances"), ("base-image", "travis-linux")])] }
    ⟨500, "boom"⟩ rfl (by decide) rfl (by decide)).1 (Or.inr (by decide))).1

theorem Stop_answered (L : Library) (p : jupiterBrainProvider)
    (payload : jupiterBrainInstancePayload) (attempts : Attempts) (u : URL) (req : Request)
    (resp : Response)
    (hu : L.urlParseRef p.baseURL ("instances/" ++ L.queryEscape payload.ID) = .ok u)
    (hreq : newRequest L "DELETE" (L.urlString u) none = .ok req)
    (hresp : (httpDo req attempts).resp = some resp) :
    Stop L { payload := some payload, provider := p } attempts =
      (.returned none, (httpDo req attempts).effects) := by
  unfold Stop
  simp only [hu, hreq, hresp, httpDo_err_of_resp _ _ _ hresp]

/-- When the DELETE request of `Stop` is answered, the two branches of `Start`
that give up do what they are meant to: after a poller error, and after the
context is done (the poller not having panicked), `Start` returns no instance
and the originating error, and the DELETE request for the created instance has
been sent. -/
theorem awaitBoot_gives_up (L : Library) (p : jupiterBrainProvider) (env : StartEnv)
    (imageName : String) (payload : jupiterBrainInstancePayload) (u : URL) (req : Request)
    (resp : Response)
    (hu : L.urlParseRef p.baseURL ("instances/" ++ L.queryEscape payload.ID) = .ok u)
    (hreq : newRequest L "DELETE" (L.urlString u) none = .ok req)
    (hresp : (httpDo req env.stop).resp = some resp) :
    (∀ err, env.select = .poller → (poller L p payload.ID env.polls).1 = .failed err →
        (awaitBoot L p env imageName payload).1 = .returned (none, some err) ∧
          Effect.send (injectToken req) ∈ (awaitBoot L p env imageName payload).2) ∧
      (∀ cause, env.select = .ctxDone cause →
        (poller L p payload.ID env.polls).1 ≠ .panicked →
        (awaitBoot L p env imageName payload).1 = .returned (none, some cause.toErr) ∧
          Effect.send (injectToken req) ∈ (awaitBoot L p env imageName payload).2) := by
  have hstop := Stop_answered L p payload env.stop u req resp hu hreq hresp
  have hne := (retry_effects (injectToken req) env.stop.first env.stop.more).1
  have hall := (retry_effects (injectToken req) env.stop.first env.stop.more).2
  have hsent : Effect.send (injectToken req) ∈ (httpDo req env.stop).effects := by
    show Effect.send (injectToken req) ∈ (retry (injectToken req) env.stop.first env.stop.more).2
    cases hl : (retry (injectToken req) env.stop.first env.stop.more).2 with
    | nil => exact absurd hl hne
    | cons e es =>
      have := hall e (by rw [hl]; exact List.mem_cons_self e es)
      rw [this]
      exact List.mem_cons_self _ _
  constructor
  · intro err hsel hpoll
    unfold awaitBoot
    simp only [hsel, hpoll, stopAndReturn, hstop]
    exact ⟨trivial, List.mem_append_right _ hsent⟩
  · intro cause hsel hpoll
    unfold awaitBoot
    cases cause with
    | canceled =>
      cases hp : (poller L p payload.ID env.polls).1 with
      | panicked => exact absurd hp hpoll
      | ready _ =>
        simp only [hsel, hp, stopAndReturn, hstop]
        exact ⟨rfl, List.mem_append_right _ hsent⟩
      | failed _ =>
        simp only [hsel, hp, stopAndReturn, hstop]
        exact ⟨rfl, List.mem_append_right _ hsent⟩
      | running =>
        simp only [hsel, hp, stopAndReturn, hstop]
        exact ⟨rfl, List.mem_append_right _ hsent⟩
    | deadlineExceeded =>
      cases hp : (poller L p payload.ID env.polls).1 with
      | panicked => exact absurd hp hpoll
      | ready _ =>
        simp only [hsel, hp, stopAndReturn, hstop]
        exact ⟨rfl, List.mem_append_right _ hsent⟩
      | failed _ =>
        simp only [hsel, hp, stopAndReturn, hstop]
        exact ⟨rfl, List.mem_append_right _ hsent⟩
      | running =>
        simp only [hsel, hp, stopAndReturn, hstop]
        exact ⟨rfl, List.mem_append_right _ hsent⟩

/-- C5 fails on the code: the create request having succeeded with instance
`vm-1`, (1) the context is cancelled while the poller loops, or (2) the poller
reports a transport error; in both cases the DELETE request for `vm-1` is sent
but meets a transport failure, `httpDo` hands `Stop` a nil response, `Stop`
dereferences it, and `Start` panics instead of returning the originating
error. -/
theorem Start_panics_when_delete_unanswered :
    (Start sampleLibrary sampleProvider
        (sampleStartEnv (.ctxDone .canceled) ⟨.failed "connection refused", []⟩)
        sampleAttributes).1 = .panicked ∧
      Effect.send sampleDelete ∈
        (Start sampleLibrary sampleProvider
          (sampleStartEnv (.ctxDone .canceled) ⟨.failed "connection refused", []⟩)
          sampleAttributes).2 ∧
      (Start sampleLibrary sampleProvider
        { create := ⟨.response ⟨201, sampleBody⟩, []⟩
          polls := [⟨⟨.failed "connection refused", []⟩, false⟩]
          select := .poller
          stop := ⟨.failed "connection refused", []⟩ } sampleAttributes).1 = .panicked ∧
      Effect.send sampleDelete ∈
        (Start sampleLibrary sampleProvider
          { create := ⟨.response ⟨201, sampleBody⟩, []⟩
            polls := [⟨⟨.failed "connection refused", []⟩, false⟩]
            select := .poller
            stop := ⟨.failed "connection refused", []⟩ } sampleAttributes).2 := by
  refine ⟨by decide, by decide, by decide, by decide⟩

/-! ## The step that opens the log writer -/

theorem LogWriter_settings (calls written : List LogWriterCall) (d n : Int)
    (hw : ∀ c ∈ written, ∃ b, c = .Write b) :
    LogWriter.timeout ⟨calls ++ [.SetTimeout d, .SetMaxLogLength n] ++ written⟩ = some d ∧
      LogWriter.maxLogLength ⟨calls ++ [.SetTimeout d, .SetMaxLogLength n] ++ written⟩
        = some n := by
  induction written using List.reverseRecOn with
  | nil => simp [LogWriter.timeout, LogWriter.maxLogLength, List.findSome?]
  | append_singleton ws c ih =>
    obtain ⟨b, rfl⟩ := hw c (by simp)
    have ih' := ih (fun c hc => hw c (by simp [hc]))
    simp only [LogWriter.timeout, LogWriter.maxLogLength] at ih' ⊢
    rw [← List.append_assoc, List.reverse_append]
    simp only [List.reverse_cons, List.reverse_nil, List.nil_append, List.singleton_append,
      List.cons_append, List.findSome?]
    exact ih'

/-- C9: on a state holding ctx, buildJob and instance, `Run` returns. If the
job's log writer cannot be opened, the job is requeued once, the action is
halt and the state is left as it was (so a state without a logWriter still has
none). If it is opened, the writer receives SetTimeout and SetMaxLogLength
with the step's configured values (and after them at most the banner Write),
it is stored under the key logWriter and the action is continue. Hence the
action is continue only when the writer was opened and is in the state. -/
theorem stepOpenLogWriter_Run_spec (s : stepOpenLogWriter) (state : StateBag) (buildJob : Job)
    (inst : Instance) (hctx : state.Get "ctx" = some .ctx)
    (hjob : state.Get "buildJob" = some (.job buildJob))
    (hinst : state.Get "instance" = some (.inst inst)) :
    (∀ e, buildJob.logWriter = .error e →
        ∃ r, s.Run state = .returned r ∧ r.action = .ActionHalt ∧ r.requeues = 1 ∧
          r.state = state ∧ (state.Get "logWriter" = none → r.state.Get "logWriter" = none)) ∧
      (∀ w, buildJob.logWriter = .ok w →
        ∃ r w' written, s.Run state = .returned r ∧ r.action = .ActionContinue ∧
          r.requeues = 0 ∧ r.state.Get "logWriter" = some (.logWriter w') ∧
          w'.calls = w.calls ++ [.SetTimeout s.logTimeout, .SetMaxLogLength s.maxLogLength]
            ++ written ∧
          (∀ c ∈ written, ∃ b, c = .Write b) ∧
          w'.timeout = some s.logTimeout ∧ w'.maxLogLength = some s.maxLogLength) ∧
      (∀ r, s.Run state = .returned r → r.action = .ActionContinue →
        ∃ w w', buildJob.logWriter = .ok w ∧
          r.state.Get "logWriter" = some (.logWriter w')) := by
  have hopen : ∀ w, buildJob.logWriter = .ok w →
      ∃ r w' written, s.Run state = .returned r ∧ r.action = .ActionContinue ∧
        r.requeues = 0 ∧ r.state.Get "logWriter" = some (.logWriter w') ∧
        w'.calls = w.calls ++ [.SetTimeout s.logTimeout, .SetMaxLogLength s.maxLogLength]
          ++ written ∧
        (∀ c ∈ written, ∃ b, c = .Write b) ∧
        w'.timeout = some s.logTimeout ∧ w'.maxLogLength = some s.maxLogLength := by
    intro w hw
    have key : ∀ written : List LogWriterCall, (∀ c ∈ written, ∃ b, c = .Write b) →
        s.Run state = .returned
          { action := .ActionContinue
            state := state.Put "logWriter" (.logWriter
              ⟨w.calls ++ [.SetTimeout s.logTimeout, .SetMaxLogLength s.maxLogLength]
                ++ written⟩)
            requeues := 0 } →
        ∃ r w' written, s.Run state = .returned r ∧ r.action = .ActionContinue ∧
          r.requeues = 0 ∧ r.state.Get "logWriter" = some (.logWriter w') ∧
          w'.calls = w.calls ++ [.SetTimeout s.logTimeout, .SetMaxLogLength s.maxLogLength]
            ++ written ∧
          (∀ c ∈ written, ∃ b, c = .Write b) ∧
          w'.timeout = some s.logTimeout ∧ w'.maxLogLength = some s.maxLogLength := by
      intro written hwr hrun
      refine ⟨_, _, written, hrun, rfl, rfl, ?_, rfl, hwr,
        (LogWriter_settings _ _ _ _ hwr).1, (LogWriter_settings _ _ _ _ hwr).2⟩
      simp [StateBag.Get, StateBag.Put, List.lookup]
    cases hh : state.Get "hostname" with
    | none =>
      refine key [] (by simp) ?_
      simp [stepOpenLogWriter.Run, hctx, hjob, hinst, hw, hh]
    | some v =>
      cases v with
      | str hostname =>
        by_cases hne : hostname = ""
        · refine key [] (by simp) ?_
          simp [stepOpenLogWriter.Run, hctx, hjob, hinst, hw, hh, hne]
        · refine key [.Write (banner hostname inst)] (by simp) ?_
          simp [stepOpenLogWriter.Run, hctx, hjob, hinst, hw, hh, hne]
      | ctx =>
        refine key [] (by simp) ?_
        simp [stepOpenLogWriter.Run, hctx, hjob, hinst, hw, hh]
      | job j =>
        refine key [] (by simp) ?_
        simp [stepOpenLogWriter.Run, hctx, hjob, hinst, hw, hh]
      | inst i =>
        refine key [] (by simp) ?_
        simp [stepOpenLogWriter.Run, hctx, hjob, hinst, hw, hh]
      | logWriter w0 =>
        refine key [] (by simp) ?_
        simp [stepOpenLogWriter.Run, hctx, hjob, hinst, hw, hh]
  have hfail : ∀ e, buildJob.logWriter = .error e →
      s.Run state = .returned { action := .ActionHalt, state := state, requeues := 1 } := by
    intro e he
    unfold stepOpenLogWriter.Run
    simp only [hctx, hjob, hinst, he]
    cases buildJob.requeue <;> rfl
  refine ⟨?_, hopen, ?_⟩
  · intro e he
    exact ⟨_, hfail e he, rfl, rfl, rfl, fun h => h⟩
  · intro r hr hcont
    cases hlw : buildJob.logWriter with
    | error e =>
      rw [hfail e hlw] at hr
      simp only [Outcome.returned.injEq] at hr
      subst hr
      cases hcont
    | ok w =>
      obtain ⟨r', w', _, hr', _, _, hget, _⟩ := hopen w hlw
      rw [hr'] at hr
      simp only [Outcome.returned.injEq] at hr
      subst hr
      exact ⟨w, w', rfl, hget⟩

theorem stepOpenLogWriter_Run_spec_witness :
    ∃ r w' written, stepOpenLogWriter.Run ⟨1000000000, 4500000⟩ sampleState = .returned r ∧
      r.action = .ActionContinue ∧ r.requeues = 0 ∧
      r.state.Get "logWriter" = some (.logWriter w') ∧
      w'.calls = [] ++ [.SetTimeout 1000000000, .SetMaxLogLength 4500000] ++ written ∧
      (∀ c ∈ written, ∃ b, c = .Write b) ∧
      w'.timeout = some 1000000000 ∧ w'.maxLogLength = some 4500000 :=
  (stepOpenLogWriter_Run_spec ⟨1000000000, 4500000⟩ sampleState sampleJob ⟨"vm-1:"⟩
    rfl rfl rfl).2.1 ⟨[]⟩ rfl


/-! ## The AMQP log writer -/

theorem utf8ByteSize_append (a b : String) :
    (a ++ b).utf8ByteSize = a.utf8ByteSize + b.utf8ByteSize := by
  cases a with
  | mk as =>
    cases b with
    | mk bs =>
      show String.utf8ByteSize ⟨as ++ bs⟩ = _
      simp [String.utf8ByteSize_mk, String.utf8Len_append]

theorem Write_buffered (w : amqpLogWriter) (p : String) (hclosed : w.closed = false)
    (hcapped : w.capped = false)
    (hcap : ((w.bytesWritten + p.utf8ByteSize : Nat) : Int) ≤ w.maxLength)
    (hmark : w.buffer.utf8ByteSize + p.utf8ByteSize < w.highWater) :
    w.Write p =
      ({ w with buffer := w.buffer ++ p, bytesWritten := w.bytesWritten + p.utf8ByteSize },
        none) := by
  have h1 : ¬ ((w.bytesWritten + p.utf8ByteSize : Nat) : Int) > w.maxLength := by omega
  have h2 : ¬ (w.buffer ++ p).utf8ByteSize ≥ w.highWater := by
    rw [utf8ByteSize_append]
    omega
  simp only [amqpLogWriter.Write, hclosed, hcapped, Bool.false_eq_true, if_false, h1, h2]

theorem run_writes_buffered (writes : List String) (w : amqpLogWriter)
    (hclosed : w.closed = false) (hcapped : w.capped = false)
    (hcap : ((w.bytesWritten + totalLength writes : Nat) : Int) ≤ w.maxLength)
    (hmark : w.buffer.utf8ByteSize + totalLength writes < w.highWater) :
    w.run (writes.map .write) =
      { w with
        buffer := writes.foldl (fun r s => r ++ s) w.buffer
        bytesWritten := w.bytesWritten + totalLength writes } := by
  induction writes generalizing w with
  | nil => simp [amqpLogWriter.run, totalLength]
  | cons p ps ih =>
    have hlen : totalLength (p :: ps) = p.utf8ByteSize + totalLength ps := by
      simp [totalLength]
    rw [hlen] at hcap hmark
    have hw := Write_buffered w p hclosed hcapped (by push_cast at hcap ⊢; omega) (by omega)
    have hstep : w.run ((p :: ps).map .write) =
        (amqpLogWriter.run
          { w with buffer := w.buffer ++ p, bytesWritten := w.bytesWritten + p.utf8ByteSize }
          (ps.map .write)) := by
      simp [amqpLogWriter.run, amqpLogWriter.step, hw]
    have ih' := ih
      { w with buffer := w.buffer ++ p, bytesWritten := w.bytesWritten + p.utf8ByteSize }
      hclosed hcapped
      (by show ((w.bytesWritten + p.utf8ByteSize + totalLength ps : Nat) : Int) ≤ w.maxLength
          push_cast at hcap ⊢; omega)
      (by show (w.buffer ++ p).utf8ByteSize + totalLength ps < w.highWater
          rw [utf8ByteSize_append]; omega)
    rw [hstep, ih']
    simp [hlen, Nat.add_assoc]

/-- C13, as stated, fails: on the state the first two steps of the standard
sequence leave (ctx and buildJob, no instance), with or without a host name,
`Run` does not return an action: the type assertion on `instance` fails and
the step panics. -/
theorem stepOpenLogWriter_Run_panics_without_instance :
    (stateBeforeStart none).Get "ctx" = some .ctx ∧
      (stateBeforeStart none).Get "buildJob" = some (.job sampleJob) ∧
      (stateBeforeStart none).Get "instance" = none ∧
      stepOpenLogWriter.Run ⟨1000000000, 4500000⟩ (stateBeforeStart none) = .panicked ∧
      (stateBeforeStart (some "worker-1")).Get "instance" = none ∧
      stepOpenLogWriter.Run ⟨1000000000, 4500000⟩ (stateBeforeStart (some "worker-1"))
        = .panicked :=
  ⟨rfl, rfl, rfl, rfl, rfl, rfl⟩

/-- C13, amended: on a state that holds ctx and buildJob, `Run` returns one of
continue or halt, whether or not hostname is known, when the state also holds
an instance (the step runs after startInstance); when the state holds no
instance the type assertion on it fails and `Run` panics. -/
theorem stepOpenLogWriter_Run_needs_instance (s : stepOpenLogWriter) (state : StateBag)
    (buildJob : Job) (hctx : state.Get "ctx" = some .ctx)
    (hjob : state.Get "buildJob" = some (.job buildJob)) :
    (∀ inst, state.Get "instance" = some (.inst inst) →
        ∃ r, s.Run state = .returned r ∧
          (r.action = .ActionContinue ∨ r.action = .ActionHalt)) ∧
      (state.Get "instance" = none → s.Run state = .panicked) := by
  constructor
  · intro inst hinst
    unfold stepOpenLogWriter.Run
    simp only [hctx, hjob, hinst]
    cases buildJob.logWriter with
    | error e =>
      cases buildJob.requeue with
      | none => exact ⟨_, rfl, Or.inr rfl⟩
      | some e' => exact ⟨_, rfl, Or.inr rfl⟩
    | ok w => exact ⟨_, rfl, Or.inl rfl⟩
  · intro hnone
    unfold stepOpenLogWriter.Run
    simp only [hctx, hjob, hnone]

theorem stepOpenLogWriter_Run_needs_instance_witness :
    (∃ r, stepOpenLogWriter.Run ⟨1000000000, 4500000⟩ sampleState = .returned r ∧
        (r.action = .ActionContinue ∨ r.action = .ActionHalt)) ∧
      stepOpenLogWriter.Run ⟨1000000000, 4500000⟩ (stateBeforeStart none) = .panicked :=
  ⟨(stepOpenLogWriter_Run_needs_instance ⟨1000000000, 4500000⟩ sampleState sampleJob
      rfl rfl).1 ⟨"vm-1:"⟩ rfl,
    (stepOpenLogWriter_Run_needs_instance ⟨1000000000, 4500000⟩ (stateBeforeStart none)
      sampleJob rfl rfl).2 rfl⟩

/-! ## Missing responses and payloads -/

/-- Whenever `httpDo` hands `Stop` no response, `Stop` panics, having made the
calls of `httpDo`. -/
theorem Stop_unanswered (L : Library) (p : jupiterBrainProvider)
    (payload : jupiterBrainInstancePayload) (attempts : Attempts) (u : URL) (req : Request)
    (hu : L.urlParseRef p.baseURL ("instances/" ++ L.queryEscape payload.ID) = .ok u)
    (hreq : newRequest L "DELETE" (L.urlString u) none = .ok req)
    (hresp : (httpDo req attempts).resp = none) :
    Stop L { payload := some payload, provider := p } attempts =
      (.panicked, (httpDo req attempts).effects) := by
  unfold Stop
  simp only [hu, hreq, hresp]

/-- C14 fails on the code: when the DELETE request meets a transport failure
until the backoff gives up, `httpDo` returns an error and no response, and
`Stop` dereferences the missing response: it panics instead of returning the
error. The same happens when `Stop` is called from the branch of `Start` taken
on a deadline. -/
theorem Stop_panics_on_transport_failure :
    (httpDo sampleDelete ⟨.failed "connection refused", [.failed "connection refused"]⟩).resp
        = none ∧
      (httpDo sampleDelete ⟨.failed "connection refused", [.failed "connection refused"]⟩).err
        = some (.external "connection refused") ∧
      Stop sampleLibrary sampleInstance
          ⟨.failed "connection refused", [.failed "connection refused"]⟩
        = (.panicked, [.send sampleDelete, .send sampleDelete]) ∧
      (Start sampleLibrary sampleProvider
        (sampleStartEnv (.ctxDone .deadlineExceeded)
          ⟨.failed "connection refused", [.failed "connection refused"]⟩)
        sampleAttributes).1 = .panicked := by
  refine ⟨by decide, by decide, by decide, by decide⟩

/-- C15 fails on the code: a 2xx create response whose body decodes to an
empty data list, to no data list at all, or to a list with a null entry makes
`Start` panic (index out of range at `Data[0]`, nil dereference at
`payload.ID`), and so does a 200 poll response with an empty data list or a
null entry (in the poller goroutine, at `Data[0]` and at
`payload.IPAddresses`): `Start` neither proceeds nor returns an error. -/
theorem Start_panics_on_missing_payload :
    lenientLibrary.jsonDecode emptyDataBody = .ok { Data := [] } ∧
      (Start lenientLibrary sampleProvider (decodeStartEnv emptyDataBody sampleBody)
        sampleAttributes).1 = .panicked ∧
      (Start lenientLibrary sampleProvider (decodeStartEnv noDataBody sampleBody)
        sampleAttributes).1 = .panicked ∧
      (Start lenientLibrary sampleProvider (decodeStartEnv nullEntryBody sampleBody)
        sampleAttributes).1 = .panicked ∧
      (Start lenientLibrary sampleProvider (decodeStartEnv sampleBody emptyDataBody)
        sampleAttributes).1 = .panicked ∧
      (Start lenientLibrary sampleProvider (decodeStartEnv sampleBody nullEntryBody)
        sampleAttributes).1 = .panicked ∧
      (Start lenientLibrary sampleProvider (decodeStartEnv sampleBody sampleBody)
        sampleAttributes).1 = .returned (some ⟨some samplePayload, sampleProvider⟩, none) := by
  refine ⟨rfl, by decide, by decide, by decide, by decide, by decide, by decide⟩

/-! ## The metric name -/

theorem replaceRunsAux_chars (cls : Char → Bool) (repl : List Char) (inRun : Bool)
    (s : List Char) (c : Char) (h : c ∈ replaceRunsAux cls repl inRun s) :
    cls c = true ∨ c ∈ repl := by
  induction s generalizing inRun with
  | nil => simp [replaceRunsAux] at h
  | cons d ds ih =>
    unfold replaceRunsAux at h
    split at h
    · rename_i hd
      rcases List.mem_cons.mp h with rfl | h'
      · exact Or.inl hd
      · exact ih false h'
    · split at h
      · exact ih true h
      · rcases List.mem_append.mp h with h' | h'
        · exact Or.inr h'
        · exact ih true h'

/-- What the code guarantees of the sanitized name: each of its characters is
in the class the expression keeps (letters, digits, `.`, and the range from
`:` to `_`) or is the `-` of a replacement. -/
theorem normalizedImageName_chars (imageName : String) (c : Char)
    (h : c ∈ (normalizedImageName imageName).data) : isMetricNameChar c = true ∨ c = '-' := by
  rcases replaceRunsAux_chars isMetricNameChar "-".data false imageName.data c h with h' | h'
  · exact Or.inl h'
  · right
    simpa using h'

/-- C16 fails on the code: for the image name `travis@ci--linux` the name
appended to the boot metric is `travis@ci-linux`. The `@` is not among the
letters, digits, `.`, `:`, `-`, `_`, yet it is kept, and the run `--` of
characters of that set is not left unchanged: in `[^A-Za-z0-9.:-_]+` the part
`:-_` is a range from `:` to `_`, which holds `@` (and `;<=>?[\]^`) and leaves
out `-`. The claimed sanitization gives `travis-ci--linux`. -/
theorem normalizedImageName_keeps_at_sign :
    normalizedImageName "travis@ci--linux" = "travis@ci-linux" ∧
      isIntendedMetricChar '@' = false ∧ isMetricNameChar '@' = true ∧
      isIntendedMetricChar '-' = true ∧ isMetricNameChar '-' = false ∧
      intendedMetricName "travis@ci--linux" = "travis-ci--linux" ∧
      Effect.timeSince "worker.vm.provider.jupiterbrain.boot.image.travis@ci-linux" ∈
        (Start sampleLibrary atProvider (decodeStartEnv sampleBody sampleBody)
          sampleAttributes).2 := by
  refine ⟨by decide, by decide, by decide, by decide, by decide, by decide, by decide⟩

end Worker
